import Mathlib

/-!
Verification development for the PredictionTrader sidecar engine.

The definitions below are shallow embeddings of the Python source:
  - apps/engine/adapters/db/writer.py        (ledger writer, upsert, retries, poison)
  - apps/engine/connectors/kalshi/rate_limit.py  (sliding-window rate limiter)
  - apps/engine/connectors/kalshi/client.py  (stream retry state, message normalizer, request body)
  - apps/engine/connectors/kalshi/errors.py  (error taxonomy mapping)
  - apps/engine/adapters/api/websocket_routes.py (UI fan-out backpressure)

Machine floats are embedded as rationals, wall-clock timestamps as natural
numbers (ISO-8601 strings compare chronologically, so an abstract monotone
clock is faithful), and Python dict/JSON values as the `Json` inductive below.
-/

namespace PredictionTrader

/-! ## JSON values and canonical serialization

Python `json.dumps(x, sort_keys=…, separators=(",", ":"))`.  Payload numbers
are embedded as integers (no claim exercises float payloads). -/

inductive Json where
  | null
  | bool (b : Bool)
  | num (n : Int)
  | str (s : String)
  | arr (xs : List Json)
  | obj (fields : List (String × Json))
deriving Repr, Inhabited

/-- One hex digit. -/
def hexDigit (n : Nat) : Char :=
  if n < 10 then Char.ofNat (48 + n) else Char.ofNat (87 + (n % 16))

/-- Four-digit hex rendering used by the \u escapes of `json.dumps`. -/
def hex4 (n : Nat) : String :=
  String.mk [hexDigit ((n / 4096) % 16), hexDigit ((n / 256) % 16),
             hexDigit ((n / 16) % 16), hexDigit (n % 16)]

/-- Escaping of one character inside a JSON string, as `json.dumps` does with
its default `ensure_ascii=True` (non-ASCII code points below 0x10000 become
one \u escape; higher ones a surrogate pair). -/
def escapeChar (c : Char) : String :=
  if c = '"' then "\\\""
  else if c = '\\' then "\\\\"
  else if c = '\n' then "\\n"
  else if c = '\t' then "\\t"
  else if c = '\r' then "\\r"
  else if c.toNat = 8 then "\\b"
  else if c.toNat = 12 then "\\f"
  else if c.toNat < 32 then "\\u" ++ hex4 c.toNat
  else if c.toNat < 127 then String.mk [c]
  else if c.toNat < 65536 then "\\u" ++ hex4 c.toNat
  else
    let v := c.toNat - 65536
    "\\u" ++ hex4 (55296 + v / 1024) ++ "\\u" ++ hex4 (56320 + v % 1024)

/-- A JSON string literal with quotes, as `json.dumps` renders it. -/
def escapeString (s : String) : String :=
  "\"" ++ String.join (s.toList.map escapeChar) ++ "\""

/-- Lexicographic order on code-point sequences: how Python compares the `str`
keys that `sort_keys=True` sorts. -/
def charListLe : List Char → List Char → Bool
  | [], _ => true
  | _ :: _, [] => false
  | a :: as, b :: bs =>
    if a.toNat < b.toNat then true
    else if b.toNat < a.toNat then false
    else charListLe as bs

/-- Key order on object fields. -/
def keyLe (a b : String × Json) : Bool :=
  charListLe a.1.toList b.1.toList

/-- Insert into a sorted list (insertion step of a stable sort). -/
def insertSorted (x : String × Json) : List (String × Json) → List (String × Json)
  | [] => [x]
  | y :: ys => if keyLe x y then x :: y :: ys else y :: insertSorted x ys

/-- Stable sort of object fields by key (the order `sorted` gives unique
dict keys). -/
def sortFields : List (String × Json) → List (String × Json)
  | [] => []
  | x :: xs => insertSorted x (sortFields xs)

-- Recursively sort every object of a JSON value by key
-- (the effect of `sort_keys=True` at all nesting levels).
mutual
def sortJson : Json → Json
  | .null => .null
  | .bool b => .bool b
  | .num n => .num n
  | .str s => .str s
  | .arr xs => .arr (sortJsonList xs)
  | .obj fs => .obj (sortFields (sortJsonFields fs))
def sortJsonList : List Json → List Json
  | [] => []
  | x :: xs => sortJson x :: sortJsonList xs
def sortJsonFields : List (String × Json) → List (String × Json)
  | [] => []
  | (k, v) :: fs => (k, sortJson v) :: sortJsonFields fs
end

-- Serialization with compact separators `(",", ":")` and each object in its
-- stored field order: `json.dumps(x, separators=(",", ":"))` without sort_keys.
mutual
def dumpJson : Json → String
  | .null => "null"
  | .bool true => "true"
  | .bool false => "false"
  | .num n => toString n
  | .str s => escapeString s
  | .arr [] => "[]"
  | .arr (x :: xs) => "[" ++ dumpJson x ++ dumpArrRest xs ++ "]"
  | .obj [] => "\x7b\x7d"
  | .obj (f :: fs) => "\x7b" ++ dumpField f ++ dumpObjRest fs ++ "\x7d"
def dumpArrRest : List Json → String
  | [] => ""
  | x :: xs => "," ++ dumpJson x ++ dumpArrRest xs
def dumpField : String × Json → String
  | (k, v) => escapeString k ++ ":" ++ dumpJson v
def dumpObjRest : List (String × Json) → String
  | [] => ""
  | f :: fs => "," ++ dumpField f ++ dumpObjRest fs
end

/-- `writer._to_json`: `json.dumps(payload, sort_keys=True, separators=(",", ":"))`. -/
def toJson (payload : Json) : String :=
  dumpJson (sortJson payload)

/-! ## Ledger writer (`apps/engine/adapters/db/writer.py`)

Wall-clock ISO timestamps are embedded as `Nat` clock readings; SHA-256 is an
uninterpreted digest function passed as a parameter. -/

/-- `writer.InboundEvent`. -/
structure InboundEvent where
  source_system : String
  source_event_id : String
  payload : Json
  source_sequence : Option Int := none
  source_emitted_at : Option String := none

/-- One row of the `event_ledger` table (columns of the required schema that
the upsert statement touches; `ledger_id` is the rowid and never read). -/
structure LedgerRow where
  source_system : String
  source_event_id : String
  source_sequence : Option Int
  source_emitted_at : Option String
  payload_json : String
  payload_sha256 : String
  ingest_first_seen_at : Nat
  ingest_last_seen_at : Nat
  ingest_attempt_count : Nat
  process_state : String
  process_error : Option String
  processed_at : Option Nat
deriving Repr, DecidableEq

/-- One row of `ingest_poison_messages` (`created_at` defaulted by the DB and
never read back). -/
structure PoisonRecord where
  source_system : Option String
  source_event_id : Option String
  reason : String
  payload_json : String
deriving Repr, DecidableEq

/-- Does a ledger row carry the natural key of the event
(`ON CONFLICT(source_system, source_event_id)`)? -/
def rowMatches (e : InboundEvent) (r : LedgerRow) : Bool :=
  r.source_system == e.source_system && r.source_event_id == e.source_event_id

/-- The `VALUES (…, 1, 'pending', NULL, NULL)` insert arm of the upsert. -/
def insertRow (e : InboundEvent) (pj sha : String) (now : Nat) : LedgerRow :=
  { source_system := e.source_system
    source_event_id := e.source_event_id
    source_sequence := e.source_sequence
    source_emitted_at := e.source_emitted_at
    payload_json := pj
    payload_sha256 := sha
    ingest_first_seen_at := now
    ingest_last_seen_at := now
    ingest_attempt_count := 1
    process_state := "pending"
    process_error := none
    processed_at := none }

/-- The `DO UPDATE SET` arm of the upsert applied to the conflicting row:
COALESCE for sequence/emitted, payload replaced, `ingest_first_seen_at` kept,
`ingest_last_seen_at` advanced, attempts incremented, and the CASE expressions
making `dead_letter` sticky. -/
def updateRow (r : LedgerRow) (e : InboundEvent) (pj sha : String) (now : Nat) : LedgerRow :=
  { r with
    source_sequence := match e.source_sequence with
      | some v => some v
      | none => r.source_sequence
    source_emitted_at := match e.source_emitted_at with
      | some v => some v
      | none => r.source_emitted_at
    payload_json := pj
    payload_sha256 := sha
    ingest_last_seen_at := now
    ingest_attempt_count := r.ingest_attempt_count + 1
    process_state := if r.process_state = "dead_letter" then r.process_state else "pending"
    process_error := if r.process_state = "dead_letter" then r.process_error else none
    processed_at := if r.process_state = "dead_letter" then r.processed_at else none }

/-- Effect of the `INSERT … ON CONFLICT … DO UPDATE` on the table contents:
update the conflicting row when the unique key is present, insert otherwise. -/
def applyUpsert (ledger : List LedgerRow) (e : InboundEvent) (pj sha : String) (now : Nat) :
    List LedgerRow :=
  if ledger.any (rowMatches e) then
    ledger.map (fun r => if rowMatches e r then updateRow r e pj sha now else r)
  else
    ledger ++ [insertRow e pj sha now]

/-- `SQLiteWriteWorker._upsert_event` minus the transaction plumbing:
canonical JSON, digest, single timestamp, then the upsert statement. -/
def upsertEvent (sha256hex : String → String) (ledger : List LedgerRow) (e : InboundEvent)
    (now : Nat) : List LedgerRow :=
  let pj := toJson e.payload
  applyUpsert ledger e pj (sha256hex pj) now

/-- A sequence of successful submits of events (each with its commit clock). -/
def submitAll (sha256hex : String → String) (ledger : List LedgerRow)
    (submits : List (InboundEvent × Nat)) : List LedgerRow :=
  submits.foldl (fun L s => upsertEvent sha256hex L s.1 s.2) ledger

/-! ### Transactional connection model

`sqlite3.connect(…, isolation_level=None)` autocommits each statement unless
an explicit transaction is open.  `_upsert_event` brackets its statement in
`BEGIN IMMEDIATE` / `COMMIT`, rolling back before re-raising on any failure;
`_record_poison` runs in autocommit mode. -/

/-- Connection state: committed tables plus the working copy of `event_ledger`
held by an open transaction (if any). -/
structure SqlConn where
  ledger : List LedgerRow
  poison : List PoisonRecord
  txnLedger : Option (List LedgerRow)
deriving Repr, DecidableEq

/-- `BEGIN IMMEDIATE`: open a transaction over the committed state. -/
def beginImmediate (c : SqlConn) : SqlConn :=
  { c with txnLedger := some c.ledger }

/-- Execute the upsert statement on the open transaction working copy
(autocommit if no transaction is open, which `_upsert_event` never does). -/
def execUpsert (sha256hex : String → String) (c : SqlConn) (e : InboundEvent) (now : Nat) :
    SqlConn :=
  match c.txnLedger with
  | some pending => { c with txnLedger := some (upsertEvent sha256hex pending e now) }
  | none => { c with ledger := upsertEvent sha256hex c.ledger e now }

/-- `COMMIT`: publish the working copy. -/
def commitTx (c : SqlConn) : SqlConn :=
  match c.txnLedger with
  | some pending => { c with ledger := pending, txnLedger := none }
  | none => c

/-- `ROLLBACK`: discard the working copy. -/
def rollbackTx (c : SqlConn) : SqlConn :=
  { c with txnLedger := none }

/-- Which statement of one `_upsert_event` attempt raises, if any.  The SQLite
errors themselves (lock contention and the like) are injected as messages. -/
inductive UpsertFault where
  | noFault
  | insertRaises (msg : String)
  | commitRaises (msg : String)
deriving Repr, DecidableEq

/-- `SQLiteWriteWorker._upsert_event`: `BEGIN IMMEDIATE`; try the insert and
the commit; on any exception issue `ROLLBACK` and re-raise. -/
def upsertEventTx (sha256hex : String → String) (c : SqlConn) (e : InboundEvent) (now : Nat)
    (fault : UpsertFault) : SqlConn × Option String :=
  let c1 := beginImmediate c
  match fault with
  | .insertRaises msg => (rollbackTx c1, some msg)
  | .commitRaises msg => (rollbackTx (execUpsert sha256hex c1 e now), some msg)
  | .noFault => (commitTx (execUpsert sha256hex c1 e now), none)

/-! ### Retry loop and poison routing -/

/-- Lowercase as `str.lower` acts on ASCII text (`Char.toLower` shifts only
the letters A–Z, which covers every message the writer inspects). -/
def strToLower (s : String) : String :=
  String.mk (s.toList.map Char.toLower)

/-- Contiguous-sublist containment on character lists (`needle in hay`). -/
def listContainsSub (needle : List Char) : List Char → Bool
  | [] => needle.isEmpty
  | c :: t => needle.isPrefixOf (c :: t) || listContainsSub needle t

/-- Python `needle in hay` on strings. -/
def strContainsSub (hay needle : String) : Bool :=
  listContainsSub needle.toList hay.toList

/-- `writer._is_transient_lock_error`. -/
def isTransientLockError (msg : String) : Bool :=
  strContainsSub (strToLower msg) "database is locked" ||
    strContainsSub (strToLower msg) "database table is locked"

/-- Writer knobs (`lock_retry_limit`, `backoff_base_seconds`,
`backoff_cap_seconds`); float seconds embedded as rationals. -/
structure WriterConfig where
  lock_retry_limit : Nat
  backoff_base_seconds : ℚ
  backoff_cap_seconds : ℚ

/-- `SQLiteWriteWorker._backoff_delay` with the unit random `u` of
`random.uniform(0.0, cap)` made explicit: `u * min(cap, base * 2^(attempt-1))`
(natural subtraction realizes `max(attempt - 1, 0)`). -/
def backoffDelay (cfg : WriterConfig) (u : ℚ) (attempt : Nat) : ℚ :=
  u * min cfg.backoff_cap_seconds (cfg.backoff_base_seconds * 2 ^ (attempt - 1))

/-- `writer.LedgerWriteResult` status plus the fatal-raise outcome. -/
inductive WriteStatus where
  | okResult (attempts : Nat)
  | poison (attempts : Nat) (message : Option String)
  | raised (msg : String)
deriving Repr, DecidableEq

/-- `SQLiteWriteWorker._record_poison` (empty identifiers are stored as NULL). -/
def recordPoison (c : SqlConn) (e : InboundEvent) (reason : String) : SqlConn :=
  { c with poison := c.poison ++
      [{ source_system := if e.source_system = "" then none else some e.source_system
         source_event_id := if e.source_event_id = "" then none else some e.source_event_id
         reason := reason
         payload_json := toJson e.payload }] }

/-- The `for attempt in range(1, lock_retry_limit + 2)` loop of
`_write_with_retries`.  `faults` gives the statement fault of each attempt,
`rand` the unit random of each backoff draw, `clock` the wall time of each
attempt; `fuel` counts the attempts still allowed (loop exhaustion falls
through to `AssertionError("unreachable")`).  Returns the connection, the
result, and the backoff sleeps performed. -/
def writeAttempts (sha256hex : String → String) (cfg : WriterConfig) (e : InboundEvent)
    (faults : Nat → UpsertFault) (rand : Nat → ℚ) (clock : Nat → Nat) (c : SqlConn) :
    Nat → Nat → SqlConn × WriteStatus × List ℚ
  | _, 0 => (c, .raised "unreachable", [])
  | attempt, fuel + 1 =>
    match upsertEventTx sha256hex c e (clock attempt) (faults attempt) with
    | (c1, none) => (c1, .okResult attempt, [])
    | (c1, some msg) =>
      if isTransientLockError msg then
        if cfg.lock_retry_limit < attempt then
          (recordPoison c1 e ("db lock retries exhausted: " ++ msg),
           .poison attempt (some msg), [])
        else
          let d := backoffDelay cfg (rand attempt) attempt
          let rest := writeAttempts sha256hex cfg e faults rand clock c1 (attempt + 1) fuel
          (rest.1, rest.2.1, d :: rest.2.2)
      else
        (c1, .raised msg, [])

/-- `SQLiteWriteWorker._write_with_retries`: reject empty identifiers to the
poison table, then run the bounded retry loop starting at attempt 1. -/
def writeWithRetries (sha256hex : String → String) (cfg : WriterConfig) (e : InboundEvent)
    (faults : Nat → UpsertFault) (rand : Nat → ℚ) (clock : Nat → Nat) (c : SqlConn) :
    SqlConn × WriteStatus × List ℚ :=
  if e.source_system = "" ∨ e.source_event_id = "" then
    (recordPoison c e "missing source_system/source_event_id", .poison 0 (some "missing id"), [])
  else
    writeAttempts sha256hex cfg e faults rand clock c 1 (cfg.lock_retry_limit + 1)

/-! ## Shared rate limiter (`apps/engine/connectors/kalshi/rate_limit.py`)

Monotonic-clock readings and float seconds are embedded as rationals. -/

/-- `_SlidingWindowBucket` state: configured RPS and the deque of reservation
times, oldest first. -/
structure Bucket where
  rps : ℚ
  events : List ℚ
deriving Repr, DecidableEq

/-- Capacity of a bucket: `max(1, int(requests_per_second))`; for the positive
RPS values the limiter admits, Python `int` truncation is the floor. -/
def bucketCapacity (rps : ℚ) : Nat :=
  max 1 (Int.toNat ⌊rps⌋)

/-- `_SlidingWindowBucket._evict_old`: pop reservations at least one second old. -/
def evictOld (b : Bucket) (now : ℚ) : Bucket :=
  { b with events := b.events.dropWhile (fun t => decide (1 ≤ now - t)) }

/-- Result of `reserve_delay`: an immediate grant (returned 0.0 with the slot
reserved), a positive wait, or the infinite wait of a non-positive RPS. -/
inductive ReserveResult where
  | ready
  | waitFor (w : ℚ)
  | infiniteWait
deriving Repr, DecidableEq

/-- `_SlidingWindowBucket.reserve_delay`.  When the deque is full its head
exists because the capacity is at least 1; the empty case below is dead code
kept only to make the match total. -/
def reserveDelay (b0 : Bucket) (now : ℚ) : ReserveResult × Bucket :=
  let b := evictOld b0 now
  if b.rps ≤ 0 then (.infiniteWait, b)
  else if b.events.length < bucketCapacity b.rps then
    (.ready, { b with events := b.events ++ [now] })
  else
    match b.events with
    | [] => (.ready, { b with events := [now] })
    | oldest :: rest =>
      let w := max 0 (oldest + 1 - now)
      if w ≤ 0 then (.ready, { b with events := rest ++ [now] })
      else (.waitFor w, b)

/-- `SharedRateLimiter` state visible to one bucket: the bucket plus the
`RateLimitMetrics` counters. -/
structure LimiterState where
  bucket : Bucket
  throttled_requests : Nat
  dropped_requests : Nat
deriving Repr, DecidableEq

/-- Outcome of one iteration of `_acquire_with_sleep`: the acquire returns,
raises `RateLimitExceededError` (whose `status_code` attribute is carried), or
must sleep `w` before committing the slot. -/
inductive AcquireOutcome where
  | granted
  | droppedReq (statusCode : Nat)
  | throttledSleep (w : ℚ)
deriving Repr, DecidableEq

/-- One iteration of `SharedRateLimiter._acquire_with_sleep` under the lock:
`reserve_delay`, return on zero, raise the 429-hinted error past the timeout
(an infinite wait always exceeds any finite timeout), else count a throttle
and go to sleep. -/
def acquireStep (s : LimiterState) (now timeout : ℚ) : AcquireOutcome × LimiterState :=
  match reserveDelay s.bucket now with
  | (.ready, b) => (.granted, { s with bucket := b })
  | (.infiniteWait, b) =>
    (.droppedReq 429, { s with bucket := b, dropped_requests := s.dropped_requests + 1 })
  | (.waitFor w, b) =>
    if timeout < w then
      (.droppedReq 429, { s with bucket := b, dropped_requests := s.dropped_requests + 1 })
    else
      (.throttledSleep w, { s with bucket := b, throttled_requests := s.throttled_requests + 1 })

/-- A burst of acquire calls at the given clock readings (each call one
`acquireStep`; no call in the bursts we study ever reaches the sleep branch). -/
def runBurst (s : LimiterState) (timeout : ℚ) : List ℚ → List AcquireOutcome × LimiterState
  | [] => ([], s)
  | t :: ts =>
    let step := acquireStep s t timeout
    let rest := runBurst step.2 timeout ts
    (step.1 :: rest.1, rest.2)

/-! ## Market-data stream retry state (`KalshiClient.stream_market_data`)

The TRANSIENT-disconnect branch of the reconnect loop, lines 287–296: the
stable-uptime reset followed by the window-start defaulting and the
unconditional failure-count increment.  The `attempt` field of the
`reconnect_scheduled` envelope and the degraded-health comparison both read
`consecutive_failures` as this step leaves it. -/

/-- The `consecutive_failures` / `retry_window_started` pair. -/
structure StreamRetryState where
  consecutive_failures : Nat
  retry_window_started : Option ℚ
deriving Repr, DecidableEq

/-- State update the stream performs on a TRANSIENT disconnect before the
retry-window check: reset on stable uptime, default the window start, then
increment the failure counter. -/
def transientDisconnectStep (stableConnectSeconds : ℚ) (st : StreamRetryState)
    (uptime now : ℚ) : StreamRetryState :=
  let st1 := if stableConnectSeconds ≤ uptime then
      { consecutive_failures := 0, retry_window_started := none }
    else st
  let st2 := match st1.retry_window_started with
    | none => { st1 with retry_window_started := some now }
    | some _ => st1
  { st2 with consecutive_failures := st2.consecutive_failures + 1 }

/-- The `attempt` field of the `reconnect_scheduled` envelope emitted after the
step (and of the `repeated_disconnects` degraded-health envelope). -/
def reconnectAttemptValue (st : StreamRetryState) : Nat :=
  st.consecutive_failures

/-- The `consecutive_failures >= degraded_after_attempts` comparison guarding
the degraded-health transition. -/
def degradedCheck (degradedAfterAttempts : Nat) (st : StreamRetryState) : Bool :=
  degradedAfterAttempts ≤ st.consecutive_failures

/-! ## UI WebSocket fan-out (`apps/engine/adapters/api/websocket_routes.py`) -/

/-- `websocket_routes.UiEvent`. -/
structure UiEvent where
  topic : String
  payload : Json
  timestamp : String
  critical : Bool
deriving Repr

/-- Per-client fan-out state (the liveness timestamps play no part in the
queue discipline and are omitted). -/
structure ClientState where
  subscriptions : List String
  queue : List UiEvent
  dropped_non_critical : Nat
deriving Repr

/-- `deque.remove` of the first non-critical queued event: `None` when every
queued event is critical.  (The scan takes the first queued event with
`critical = false`; an equal deque element cannot precede it, since equality
would make that element non-critical too.) -/
def removeFirstNonCritical : List UiEvent → Option (List UiEvent)
  | [] => none
  | ev :: rest =>
    if ev.critical then (removeFirstNonCritical rest).map (ev :: ·)
    else some rest

/-- `ApiWebSocketConnectionManager._enqueue_event`.  `none` stands for the
`IndexError` of `popleft` on an empty deque, reachable only when
`max_queue_size = 0`; it propagates before any state mutation. -/
def enqueueEvent (maxQueueSize : Nat) (st : ClientState) (ev : UiEvent) : Option ClientState :=
  if st.queue.length < maxQueueSize then
    some { st with queue := st.queue ++ [ev] }
  else if ev.critical then
    match removeFirstNonCritical st.queue with
    | some q =>
      some { st with queue := q ++ [ev],
                     dropped_non_critical := st.dropped_non_critical + 1 }
    | none =>
      match st.queue with
      | [] => none
      | _ :: rest => some { st with queue := rest ++ [ev] }
  else
    some { st with dropped_non_critical := st.dropped_non_critical + 1 }

/-- `flush` for one client: send up to `limit` frames from the queue head
(default: the whole queue).  Returns the new state and the events sent. -/
def flushClient (st : ClientState) (limit : Option Nat) : ClientState × List UiEvent :=
  let n := limit.getD st.queue.length
  ({ st with queue := st.queue.drop n }, st.queue.take n)

/-- The fan-out operations that touch one client queue. -/
inductive ClientOp where
  | streamEv (ev : UiEvent)
  | flushOp (limit : Option Nat)

/-- Apply one manager operation to one client: `stream_event` enqueues when
the topic is subscribed (an `IndexError` from `popleft` leaves the state
unmodified), `flush` drains. -/
def applyClientOp (maxQueueSize : Nat) (st : ClientState) : ClientOp → ClientState
  | .streamEv ev =>
    if st.subscriptions.contains ev.topic then
      (enqueueEvent maxQueueSize st ev).getD st
    else st
  | .flushOp limit => (flushClient st limit).1

/-- A sequence of fan-out operations on one client. -/
def applyClientOps (maxQueueSize : Nat) (st : ClientState) (ops : List ClientOp) : ClientState :=
  ops.foldl (applyClientOp maxQueueSize) st

/-! ## Error taxonomy (`apps/engine/connectors/kalshi/errors.py`) -/

/-- `errors.ConnectorErrorCode`. -/
inductive ConnectorErrorCode where
  | authenticationFailed
  | authorizationFailed
  | notFound
  | rateLimited
  | networkError
  | timeout
  | badRequest
  | schemaValidation
  | remoteError
  | unknown
deriving Repr, DecidableEq

/-- The attributes of a Python exception that `map_kalshi_error` inspects:
the optional `status_code` attribute, the isinstance facts (in Python
`TimeoutError` is itself an `OSError` subclass, so a timeout error would set
both flags), and `str(error)`. -/
structure PyError where
  status_code : Option Int
  isTimeoutError : Bool
  isOSError : Bool
  isValueError : Bool
  message : String
deriving Repr, DecidableEq

/-- `if status_code and int(status_code) >= 500` — a truthiness test (absent
or zero is falsy) followed by the comparison. -/
def statusAtLeast500 (st : Option Int) : Bool :=
  match st with
  | some c => c != 0 && 500 ≤ c
  | none => false

/-- `errors.map_kalshi_error`, in the exact source order of its guards. -/
def mapKalshiError (e : PyError) : ConnectorErrorCode :=
  if e.status_code = some 400 then .badRequest
  else if e.status_code = some 401 then .authenticationFailed
  else if e.status_code = some 403 then .authorizationFailed
  else if e.status_code = some 404 then .notFound
  else if e.status_code = some 429 then .rateLimited
  else if e.isTimeoutError then .timeout
  else if e.isOSError then .networkError
  else if strContainsSub (strToLower e.message) "timeout" then .timeout
  else if strContainsSub (strToLower e.message) "connection" ||
          strContainsSub (strToLower e.message) "network" then .networkError
  else if statusAtLeast500 e.status_code then .remoteError
  else if e.isValueError then .schemaValidation
  else .unknown

/-- Modelled from the spec: the mapping applied in the order the spec states
it — the five exact statuses, then every status at least 500 to
`remote_error`, and only afterwards the transport-type, message-substring and
value-type rules.  Used to compare the stated rule order with the source. -/
def mapKalshiErrorSpecOrder (e : PyError) : ConnectorErrorCode :=
  if e.status_code = some 400 then .badRequest
  else if e.status_code = some 401 then .authenticationFailed
  else if e.status_code = some 403 then .authorizationFailed
  else if e.status_code = some 404 then .notFound
  else if e.status_code = some 429 then .rateLimited
  else if statusAtLeast500 e.status_code then .remoteError
  else if e.isTimeoutError then .timeout
  else if e.isOSError then .networkError
  else if strContainsSub (strToLower e.message) "timeout" then .timeout
  else if strContainsSub (strToLower e.message) "connection" ||
          strContainsSub (strToLower e.message) "network" then .networkError
  else if e.isValueError then .schemaValidation
  else .unknown

/-! ## Message normalization (`KalshiClient.process_market_data_message`)

Python mapping semantics over `Json`: `.get` yields `none` both for a missing
key and for a JSON `null` value (both are Python `None`); `x or y` chains on
truthiness.  The datetime formatting applied to a present timestamp value is
abstracted as the `fmtTs` parameter; the `value is None` check that precedes
it is concrete. -/

/-- Python truthiness of a JSON value. -/
def jsonTruthy : Json → Bool
  | .null => false
  | .bool b => b
  | .num n => n != 0
  | .str s => !(s == "")
  | .arr xs => !xs.isEmpty
  | .obj fs => !fs.isEmpty

/-- `mapping.get(key)`: `none` for a missing key, a non-`obj` receiver, or a
stored JSON `null` (Python `None`). -/
def pyGet (j : Json) (k : String) : Option Json :=
  match j with
  | .obj fs =>
    match fs.lookup k with
    | some .null => none
    | some v => some v
    | none => none
  | _ => none

/-- `mapping[key]`: `KeyError` when absent (a stored `null` is returned as a
value here, unlike `.get`). -/
def pyGetItem (j : Json) (k : String) : Except String Json :=
  match j with
  | .obj fs =>
    match fs.lookup k with
    | some v => .ok v
    | none => .error ("KeyError: " ++ k)
  | _ => .error ("KeyError: " ++ k)

/-- First truthy value of a Python `a or b or …` chain over looked-up values. -/
def pyTruthyFirst : List (Option Json) → Option Json
  | [] => none
  | o :: os =>
    match o with
    | some v => if jsonTruthy v then some v else pyTruthyFirst os
    | none => pyTruthyFirst os

/-- `payload.get(k1) or payload.get(k2) or …`. -/
def pyOrChain (payload : Json) (keys : List String) : Option Json :=
  pyTruthyFirst (keys.map (pyGet payload))

/-- `str(value)` for the scalar values the normalizer feeds it (containers are
rendered via the JSON dump as an approximation of `repr`; every channel and
side the claims exercise is already a string). -/
def pyStr : Json → String
  | .str s => s
  | .num n => toString n
  | .bool true => "True"
  | .bool false => "False"
  | .null => "None"
  | j => dumpJson j

/-- `int(value)` on the values the normalizer can receive: integers pass
through, booleans coerce, decimal strings parse (`TypeError`/`ValueError`
otherwise). -/
def pyInt : Json → Except String Int
  | .num n => .ok n
  | .bool b => .ok (if b then 1 else 0)
  | .str s =>
    match s.toInt? with
    | some n => .ok n
    | none => .error ("invalid literal for int: " ++ s)
  | _ => .error "int argument must be a number or a string"

/-- `KalshiClient._to_int`: `None` is rejected before `int` conversion. -/
def toIntReq : Option Json → Except String Int
  | none => .error "Required numeric field missing"
  | some j => pyInt j

/-- `KalshiClient._extract_payload`: `raw["data"]` when it is a mapping, else
the raw message itself. -/
def extractPayload (raw : Json) : Json :=
  match pyGet raw "data" with
  | some (Json.obj fs) => Json.obj fs
  | _ => raw

/-- `KalshiClient._extract_sequence`: try `sequence`, `seq`, `sid` with
`is None` chaining, then `int(value or 0)`. -/
def extractSequence (payload : Json) : Except String Int :=
  let v := ((pyGet payload "sequence").orElse
      (fun _ => pyGet payload "seq")).orElse (fun _ => pyGet payload "sid")
  match v with
  | some j => if jsonTruthy j then pyInt j else .ok 0
  | none => .ok 0

/-- `KalshiClient._normalize_timestamp`: `None` raises "Missing timestamp"; a
present value goes through the datetime machinery, abstracted as `fmtTs`
(which itself fails on unparseable input). -/
def normalizeTimestamp (fmtTs : Json → Except String String) :
    Option Json → Except String String
  | none => .error "Missing timestamp"
  | some v => fmtTs v

/-- `str(payload.get(k) or "")` — the falsy default collapses to the empty
string before `str`. -/
def pyStrGetOrEmpty (payload : Json) (k : String) : String :=
  match pyTruthyFirst [pyGet payload k] with
  | some v => pyStr v
  | none => ""

/-- `KalshiClient._normalize_orderbook_delta`. -/
def normalizeOrderbookDelta (fmtTs : Json → Except String String) (payload : Json) :
    Except String Json := do
  let side := strToLower (pyStrGetOrEmpty payload "side")
  if side ≠ "yes" ∧ side ≠ "no" then
    throw "orderbook_delta side must be yes/no"
  let marketId ← (pyGetItem payload "market_id").map pyStr
  let sequence ← extractSequence payload
  let timestamp ← normalizeTimestamp fmtTs (pyOrChain payload ["timestamp", "ts"])
  let price ← toIntReq (pyGet payload "price")
  let sizeDelta ← toIntReq (pyOrChain payload ["size_delta", "delta", "size"])
  pure (Json.obj
    [("schema", .str "orderbook_delta"), ("market_id", .str marketId),
     ("sequence", .num sequence), ("timestamp", .str timestamp),
     ("side", .str side), ("price", .num price), ("size_delta", .num sizeDelta)])

/-- `KalshiClient._normalize_trade`. -/
def normalizeTrade (fmtTs : Json → Except String String) (payload : Json) :
    Except String Json := do
  let side := strToLower (pyStrGetOrEmpty payload "side")
  if side ≠ "buy_yes" ∧ side ≠ "sell_yes" ∧ side ≠ "buy_no" ∧ side ≠ "sell_no" then
    throw "trade side must be buy_yes/sell_yes/buy_no/sell_no"
  let liquidity := strToLower (pyStrGetOrEmpty payload "liquidity")
  if liquidity ≠ "maker" ∧ liquidity ≠ "taker" then
    throw "trade liquidity must be maker/taker"
  let tradeId := pyStr ((pyOrChain payload ["trade_id", "id"]).getD .null)
  let marketId ← (pyGetItem payload "market_id").map pyStr
  let timestamp ← normalizeTimestamp fmtTs (pyOrChain payload ["timestamp", "ts"])
  let price ← toIntReq (pyGet payload "price")
  let size ← toIntReq (pyGet payload "size")
  pure (Json.obj
    [("schema", .str "trade"), ("trade_id", .str tradeId),
     ("market_id", .str marketId), ("timestamp", .str timestamp),
     ("side", .str side), ("price", .num price), ("size", .num size),
     ("liquidity", .str liquidity)])

/-- The resolved channel: `str(raw.get("channel") or payload.get("type") or
raw.get("type") or "")`. -/
def resolvedChannel (raw : Json) : String :=
  let payload := extractPayload raw
  match pyTruthyFirst [pyGet raw "channel", pyGet payload "type", pyGet raw "type"] with
  | some v => pyStr v
  | none => ""

/-- `KalshiClient._normalize_message`: dispatch on the resolved channel; an
unsupported channel yields the empty list; any exception out of the two
normalizers is re-raised as the wrapped parse ValueError (source text quotes
the channel name; the quoting is elided here). -/
def normalizeMessage (fmtTs : Json → Except String String) (raw : Json) :
    Except String (List Json) :=
  let payload := extractPayload raw
  let channel := resolvedChannel raw
  if channel = "orderbook_delta" then
    match normalizeOrderbookDelta fmtTs payload with
    | .ok ev => .ok [ev]
    | .error _ => .error ("Unable to parse market data message for channel " ++ channel)
  else if channel = "trade" then
    match normalizeTrade fmtTs payload with
    | .ok ev => .ok [ev]
    | .error _ => .error ("Unable to parse market data message for channel " ++ channel)
  else
    .ok []

/-- `KalshiClient.process_market_data_message`: normalize, then build the
envelope fields — the sequence and the source timestamp are extracted
unconditionally, before the per-event loop — and publish one envelope per
normalized event.  Returns the normalized events and the published
envelopes; `ingestTs` stands for `self._normalize_timestamp(time.time())`. -/
def processMarketDataMessage (fmtTs : Json → Except String String) (ingestTs : String)
    (raw : Json) : Except String (List Json × List Json) := do
  let events ← normalizeMessage fmtTs raw
  let payload := extractPayload raw
  let sourceSequence ← extractSequence payload
  let sourceTimestamp ← normalizeTimestamp fmtTs (pyOrChain payload ["timestamp", "ts"])
  let envelopes ← events.mapM (fun ev => do
    let schema ← pyGetItem ev "schema"
    pure (Json.obj
      [("source", .str "kalshi"), ("schema", schema),
       ("source_sequence", .num sourceSequence),
       ("source_timestamp", .str sourceTimestamp),
       ("ingest_timestamp", .str ingestTs), ("payload", ev)]))
  pure (events, envelopes)

/-! ## HTTP request body (`KalshiClient._request`, lines 136–158) -/

/-- `json.dumps(dict(payload or \x7b\x7d), separators=(",", ":")) if payload
else ""` — note: no `sort_keys`. -/
def requestBody (payload : Option Json) : String :=
  match payload with
  | some p => if jsonTruthy p then dumpJson p else ""
  | none => ""

/-- The body strings `_request` produces: the one passed to
`signed_headers(…, body=body)` and the one passed as `data` to the session
(`body or None`). -/
structure BuiltRequest where
  signedBody : String
  sentBody : Option String
deriving Repr, DecidableEq

/-- Body construction of `KalshiClient._request`. -/
def buildRequest (payload : Option Json) : BuiltRequest :=
  let body := requestBody payload
  { signedBody := body, sentBody := if body = "" then none else some body }

/-- Modelled from the spec: serialize the JSON body with sorted keys and
compact separators (the canonical serialization the spec prescribes for the
request pipeline). -/
def specCanonicalBody (payload : Json) : String :=
  dumpJson (sortJson payload)

/-! ## Lemmas about the ledger upsert -/

/-- The freshly inserted row carries the natural key of its event. -/
theorem rowMatches_insertRow (e : InboundEvent) (pj sha : String) (now : Nat) :
    rowMatches e (insertRow e pj sha now) = true := by
  simp [rowMatches, insertRow]

/-- The update arm does not touch the key columns. -/
theorem rowMatches_updateRow (e e2 : InboundEvent) (r : LedgerRow) (pj sha : String)
    (now : Nat) : rowMatches e (updateRow r e2 pj sha now) = rowMatches e r := by
  simp [rowMatches, updateRow]

theorem filter_map_update (e : InboundEvent) (pj sha : String) (now : Nat) :
    ∀ L : List LedgerRow,
      (L.map (fun r => if rowMatches e r then updateRow r e pj sha now else r)).filter
          (rowMatches e) =
        (L.filter (rowMatches e)).map (fun r => updateRow r e pj sha now)
  | [] => by simp
  | r :: L => by
    by_cases h : rowMatches e r
    · simp only [List.map_cons, List.filter_cons, h, if_pos, if_true,
        rowMatches_updateRow, filter_map_update e pj sha now L]
    · simp only [List.map_cons, List.filter_cons, h, if_neg, Bool.false_eq_true, if_false,
        filter_map_update e pj sha now L]

/-- Upsert into a table without the key: the insert arm fires and the key now
selects exactly the inserted row. -/
theorem filter_applyUpsert_absent (L : List LedgerRow) (e : InboundEvent) (pj sha : String)
    (now : Nat) (habs : L.filter (rowMatches e) = []) :
    (applyUpsert L e pj sha now).filter (rowMatches e) = [insertRow e pj sha now] := by
  have hall : ∀ r ∈ L, ¬ rowMatches e r = true := by
    intro r hr
    exact (List.filter_eq_nil_iff.mp habs) r hr
  have hany : L.any (rowMatches e) = false := by
    by_contra h
    rcases List.any_eq_true.mp (Bool.of_not_eq_false h) with ⟨r, hr, hm⟩
    exact hall r hr hm
  simp [applyUpsert, hany, List.filter_append, habs, rowMatches_insertRow]

/-- Upsert into a table where the key selects exactly one row: the update arm
fires and the key selects exactly the updated row. -/
theorem filter_applyUpsert_present (L : List LedgerRow) (e : InboundEvent) (r : LedgerRow)
    (pj sha : String) (now : Nat) (hpres : L.filter (rowMatches e) = [r]) :
    (applyUpsert L e pj sha now).filter (rowMatches e) = [updateRow r e pj sha now] := by
  have hr : r ∈ L.filter (rowMatches e) := by rw [hpres]; exact List.mem_singleton.mpr rfl
  have hany : L.any (rowMatches e) = true :=
    List.any_eq_true.mpr ⟨r, List.mem_of_mem_filter hr, List.of_mem_filter hr⟩
  simp [applyUpsert, hany, filter_map_update, hpres]

/-- The row an unbroken chain of updates produces, starting from `r`. -/
def finalRow (sha256hex : String → String) (r : LedgerRow)
    (subs : List (InboundEvent × Nat)) : LedgerRow :=
  subs.foldl
    (fun r s => updateRow r s.1 (toJson s.1.payload) (sha256hex (toJson s.1.payload)) s.2) r

theorem finalRow_nil (sha256hex : String → String) (r : LedgerRow) :
    finalRow sha256hex r [] = r := rfl

theorem finalRow_cons (sha256hex : String → String) (r : LedgerRow)
    (s : InboundEvent × Nat) (subs : List (InboundEvent × Nat)) :
    finalRow sha256hex r (s :: subs) =
      finalRow sha256hex
        (updateRow r s.1 (toJson s.1.payload) (sha256hex (toJson s.1.payload)) s.2) subs := rfl

/-- Iterated submission over a table whose key selects exactly `r` leaves the
key selecting exactly the chain of updates of `r`, provided every submitted
event carries that key. -/
theorem filter_submitAll (sha256hex : String → String) (e0 : InboundEvent) :
    ∀ (subs : List (InboundEvent × Nat)) (L : List LedgerRow) (r : LedgerRow),
      L.filter (rowMatches e0) = [r] →
      (∀ s ∈ subs, s.1.source_system = e0.source_system ∧
        s.1.source_event_id = e0.source_event_id) →
      (submitAll sha256hex L subs).filter (rowMatches e0) = [finalRow sha256hex r subs]
  | [], L, r, hL, _ => by simpa [submitAll, finalRow] using hL
  | s :: subs, L, r, hL, hkeys => by
    have hkey := hkeys s (List.mem_cons_self s subs)
    have hmatch : ∀ r2 : LedgerRow, rowMatches s.1 r2 = rowMatches e0 r2 := by
      intro r2
      simp [rowMatches, hkey.1, hkey.2]
    have hstep : (upsertEvent sha256hex L s.1 s.2).filter (rowMatches e0) =
        [updateRow r s.1 (toJson s.1.payload) (sha256hex (toJson s.1.payload)) s.2] := by
      have := filter_applyUpsert_present L s.1 r (toJson s.1.payload)
        (sha256hex (toJson s.1.payload)) s.2
      simp only [upsertEvent, applyUpsert, funext hmatch] at this ⊢
      exact this hL
    have htail := filter_submitAll sha256hex e0 subs (upsertEvent sha256hex L s.1 s.2)
      (updateRow r s.1 (toJson s.1.payload) (sha256hex (toJson s.1.payload)) s.2) hstep
      (fun x hx => hkeys x (List.mem_cons_of_mem s hx))
    simpa [submitAll, finalRow_cons] using htail

theorem finalRow_first_seen (sha256hex : String → String) :
    ∀ (subs : List (InboundEvent × Nat)) (r : LedgerRow),
      (finalRow sha256hex r subs).ingest_first_seen_at = r.ingest_first_seen_at
  | [], r => rfl
  | s :: subs, r => by
    rw [finalRow_cons, finalRow_first_seen sha256hex subs]
    rfl

theorem finalRow_attempts (sha256hex : String → String) :
    ∀ (subs : List (InboundEvent × Nat)) (r : LedgerRow),
      (finalRow sha256hex r subs).ingest_attempt_count =
        r.ingest_attempt_count + subs.length
  | [], r => rfl
  | s :: subs, r => by
    rw [finalRow_cons, finalRow_attempts sha256hex subs]
    simp [updateRow]
    omega

theorem finalRow_last (sha256hex : String → String) :
    ∀ (subs : List (InboundEvent × Nat)) (r : LedgerRow) (sN : InboundEvent × Nat),
      subs.getLast? = some sN →
      (finalRow sha256hex r subs).payload_json = toJson sN.1.payload ∧
        (finalRow sha256hex r subs).ingest_last_seen_at = sN.2
  | [], _, _, h => by simp at h
  | [s], r, sN, h => by
    simp only [List.getLast?_singleton, Option.some.injEq] at h
    subst h
    exact ⟨rfl, rfl⟩
  | s :: s2 :: subs, r, sN, h => by
    rw [List.getLast?_cons_cons] at h
    rw [finalRow_cons]
    exact finalRow_last sha256hex (s2 :: subs) _ sN h

theorem chain_head_le_getLast :
    ∀ (l : List Nat) (a b : Nat), List.Chain' (· ≤ ·) l →
      l.head? = some a → l.getLast? = some b → a ≤ b
  | [], _, _, _, ha, _ => by simp at ha
  | [x], a, b, _, ha, hb => by
    simp only [List.head?_cons, Option.some.injEq] at ha
    simp only [List.getLast?_singleton, Option.some.injEq] at hb
    omega
  | x :: y :: l, a, b, hchain, ha, hb => by
    simp only [List.head?_cons, Option.some.injEq] at ha
    rw [List.getLast?_cons_cons] at hb
    rcases List.chain'_cons.mp hchain with ⟨hxy, htail⟩
    have := chain_head_le_getLast (y :: l) y b htail rfl hb
    omega

/-- Claim C1.  Idempotent ingestion: starting from a ledger without the key,
any non-empty sequence of successful submits of one
`(source_system, source_event_id)` with non-empty identifiers and
non-decreasing commit clocks leaves exactly one row for the key; its
`payload_json` is the canonical JSON of the last payload, its
`ingest_attempt_count` is the number of submits, its `ingest_first_seen_at`
is the first submit clock and is at most `ingest_last_seen_at`, which the
last submit set. -/
theorem C1_idempotent_ingestion (sha256hex : String → String) (L0 : List LedgerRow)
    (e0 : InboundEvent) (subs : List (InboundEvent × Nat)) (s1 sN : InboundEvent × Nat)
    (hss : e0.source_system ≠ "") (hsid : e0.source_event_id ≠ "")
    (habs : L0.filter (rowMatches e0) = [])
    (hkeys : ∀ s ∈ subs, s.1.source_system = e0.source_system ∧
      s.1.source_event_id = e0.source_event_id)
    (hfirst : subs.head? = some s1) (hlast : subs.getLast? = some sN)
    (hmono : List.Chain' (· ≤ ·) (subs.map Prod.snd)) :
    ∃ row, (submitAll sha256hex L0 subs).filter (rowMatches e0) = [row] ∧
      row.payload_json = toJson sN.1.payload ∧
      row.ingest_attempt_count = subs.length ∧
      row.ingest_first_seen_at = s1.2 ∧
      row.ingest_last_seen_at = sN.2 ∧
      row.ingest_first_seen_at ≤ row.ingest_last_seen_at := by
  rcases subs with _ | ⟨sHead, rest⟩
  · simp at hfirst
  obtain rfl : sHead = s1 := by simpa using hfirst
  have hkey1 := hkeys sHead (List.mem_cons_self sHead rest)
  have hmatch : ∀ r2 : LedgerRow, rowMatches sHead.1 r2 = rowMatches e0 r2 := by
    intro r2
    simp [rowMatches, hkey1.1, hkey1.2]
  -- the first submit inserts
  set pj1 := toJson sHead.1.payload with hpj1
  have hins : (upsertEvent sha256hex L0 sHead.1 sHead.2).filter (rowMatches e0) =
      [insertRow sHead.1 pj1 (sha256hex pj1) sHead.2] := by
    have h0 : L0.filter (rowMatches sHead.1) = [] := by
      rw [funext hmatch]; exact habs
    have := filter_applyUpsert_absent L0 sHead.1 pj1 (sha256hex pj1) sHead.2 h0
    rw [funext hmatch] at this
    simpa [upsertEvent] using this
  -- the remaining submits update that row
  have hrest := filter_submitAll sha256hex e0 rest (upsertEvent sha256hex L0 sHead.1 sHead.2)
    (insertRow sHead.1 pj1 (sha256hex pj1) sHead.2) hins
    (fun x hx => hkeys x (List.mem_cons_of_mem sHead hx))
  have hsubmit : (submitAll sha256hex L0 (sHead :: rest)).filter (rowMatches e0) =
      [finalRow sha256hex (insertRow sHead.1 pj1 (sha256hex pj1) sHead.2) rest] := by
    simpa [submitAll] using hrest
  refine ⟨_, hsubmit, ?_, ?_, ?_, ?_, ?_⟩
  · -- payload of the last submit
    rcases hre : rest.getLast? with _ | sM
    · have : rest = [] := List.getLast?_eq_none_iff.mp hre
      subst this
      simp only [List.getLast?_singleton, Option.some.injEq] at hlast
      subst hlast
      simp [finalRow_nil, insertRow]
    · have : (sHead :: rest).getLast? = some sM := by
        rcases rest with _ | ⟨y, l⟩
        · simp at hre
        · rw [List.getLast?_cons_cons]; exact hre
      rw [hlast] at this
      injection this with hEq
      subst hEq
      exact (finalRow_last sha256hex rest _ sN hre).1
  · rw [finalRow_attempts]
    simp [insertRow]
    omega
  · rw [finalRow_first_seen]
    rfl
  · rcases hre : rest.getLast? with _ | sM
    · have : rest = [] := List.getLast?_eq_none_iff.mp hre
      subst this
      simp only [List.getLast?_singleton, Option.some.injEq] at hlast
      subst hlast
      simp [finalRow_nil, insertRow]
    · have : (sHead :: rest).getLast? = some sM := by
        rcases rest with _ | ⟨y, l⟩
        · simp at hre
        · rw [List.getLast?_cons_cons]; exact hre
      rw [hlast] at this
      injection this with hEq
      subst hEq
      exact (finalRow_last sha256hex rest _ sN hre).2
  · -- first clock is at most last clock
    rw [finalRow_first_seen]
    rcases hre : rest.getLast? with _ | sM
    · have : rest = [] := List.getLast?_eq_none_iff.mp hre
      subst this
      simp only [List.getLast?_singleton, Option.some.injEq] at hlast
      subst hlast
      simp [finalRow_nil, insertRow]
    · have hlastm : (sHead :: rest).getLast? = some sM := by
        rcases rest with _ | ⟨y, l⟩
        · simp at hre
        · rw [List.getLast?_cons_cons]; exact hre
      rw [hlast] at hlastm
      injection hlastm with hEq
      subst hEq
      have hle : sHead.2 ≤ sN.2 := by
        refine chain_head_le_getLast ((sHead :: rest).map Prod.snd) sHead.2 sN.2 hmono (by simp) ?_
        rw [List.getLast?_map, hlast]
        rfl
      rw [(finalRow_last sha256hex rest _ sN hre).2]
      simpa [insertRow] using hle

def c1Key : InboundEvent :=
  { source_system := "kalshi", source_event_id := "evt-1", payload := Json.null }

def c1Submits : List (InboundEvent × Nat) :=
  [({ source_system := "kalshi", source_event_id := "evt-1",
      payload := Json.obj [("x", Json.num 1)] }, 3),
   ({ source_system := "kalshi", source_event_id := "evt-1",
      payload := Json.obj [("x", Json.num 2)] }, 7)]

theorem C1_idempotent_ingestion_witness :
    ∃ row, (submitAll (fun _ => "sha") [] c1Submits).filter (rowMatches c1Key) = [row] ∧
      row.payload_json = toJson (Json.obj [("x", Json.num 2)]) ∧
      row.ingest_attempt_count = 2 ∧
      row.ingest_first_seen_at = 3 ∧
      row.ingest_last_seen_at = 7 ∧
      row.ingest_first_seen_at ≤ row.ingest_last_seen_at := by
  have h := C1_idempotent_ingestion (fun _ => "sha") [] c1Key c1Submits
    (c1Submits.get ⟨0, by simp [c1Submits]⟩) (c1Submits.get ⟨1, by simp [c1Submits]⟩)
    (by simp [c1Key]) (by simp [c1Key])
    rfl
    (by
      intro s hs
      rcases List.mem_cons.mp hs with h1 | hs
      · subst h1; exact ⟨rfl, rfl⟩
      rcases List.mem_singleton.mp hs with h2
      subst h2; exact ⟨rfl, rfl⟩)
    rfl rfl (by simp [c1Submits])
  simpa [c1Submits, c1Key] using h

/-- Claim C2.  Dead-letter stickiness: when the ledger row selected by the key
of the submitted event has `process_state = dead_letter`, the upsert leaves
`process_state`, `process_error` and `processed_at` unchanged while the other
columns follow the normal update rules (payload and digest replaced,
`ingest_last_seen_at` advanced, attempts incremented, `ingest_first_seen_at`
kept, sequence and emitted-at coalesced). -/
theorem C2_dead_letter_sticky (sha256hex : String → String) (L : List LedgerRow)
    (e : InboundEvent) (r : LedgerRow) (now : Nat)
    (hpres : L.filter (rowMatches e) = [r])
    (hdead : r.process_state = "dead_letter") :
    ∃ r2, (upsertEvent sha256hex L e now).filter (rowMatches e) = [r2] ∧
      r2.process_state = r.process_state ∧
      r2.process_error = r.process_error ∧
      r2.processed_at = r.processed_at ∧
      r2.payload_json = toJson e.payload ∧
      r2.payload_sha256 = sha256hex (toJson e.payload) ∧
      r2.ingest_first_seen_at = r.ingest_first_seen_at ∧
      r2.ingest_last_seen_at = now ∧
      r2.ingest_attempt_count = r.ingest_attempt_count + 1 ∧
      r2.source_sequence = (match e.source_sequence with
        | some v => some v
        | none => r.source_sequence) ∧
      r2.source_emitted_at = (match e.source_emitted_at with
        | some v => some v
        | none => r.source_emitted_at) := by
  refine ⟨updateRow r e (toJson e.payload) (sha256hex (toJson e.payload)) now, ?_,
    ?_, ?_, ?_, rfl, rfl, rfl, rfl, rfl, rfl, rfl⟩
  · exact filter_applyUpsert_present L e r _ _ now hpres
  · simp [updateRow, hdead]
  · simp [updateRow, hdead]
  · simp [updateRow, hdead]

def c2DeadRow : LedgerRow :=
  { source_system := "kalshi", source_event_id := "evt-9", source_sequence := none
    source_emitted_at := none, payload_json := "\x7b\x7d", payload_sha256 := "d0"
    ingest_first_seen_at := 1, ingest_last_seen_at := 1, ingest_attempt_count := 1
    process_state := "dead_letter", process_error := some "boom", processed_at := some 2 }

def c2Event : InboundEvent :=
  { source_system := "kalshi", source_event_id := "evt-9"
    payload := Json.obj [("x", Json.num 5)] }

theorem C2_dead_letter_sticky_witness :
    ∃ r2, (upsertEvent (fun _ => "d1") [c2DeadRow] c2Event 4).filter (rowMatches c2Event) =
        [r2] ∧
      r2.process_state = c2DeadRow.process_state ∧
      r2.process_error = c2DeadRow.process_error ∧
      r2.processed_at = c2DeadRow.processed_at ∧
      r2.payload_json = toJson c2Event.payload ∧
      r2.payload_sha256 = (fun _ : String => "d1") (toJson c2Event.payload) ∧
      r2.ingest_first_seen_at = c2DeadRow.ingest_first_seen_at ∧
      r2.ingest_last_seen_at = 4 ∧
      r2.ingest_attempt_count = c2DeadRow.ingest_attempt_count + 1 ∧
      r2.source_sequence = (match c2Event.source_sequence with
        | some v => some v
        | none => c2DeadRow.source_sequence) ∧
      r2.source_emitted_at = (match c2Event.source_emitted_at with
        | some v => some v
        | none => c2DeadRow.source_emitted_at) :=
  C2_dead_letter_sticky (fun _ => "d1") [c2DeadRow] c2Event c2DeadRow 4 (by decide) rfl

/-- Claim C5 as stated is false: after a stable session
(uptime at least `stable_connect_seconds`) the TRANSIENT branch does reset the
counter, but then increments it unconditionally, so the failure counter read
by the subsequent envelopes is 1, not 0: at `stable = 5`, prior state
`(7, window at 100)`, `uptime = 10`, `now = 200` the step yields counter 1. -/
theorem C5_stable_reset_counterexample :
    (transientDisconnectStep 5 ⟨7, some 100⟩ 10 200).consecutive_failures ≠ 0 ∧
      transientDisconnectStep 5 ⟨7, some 100⟩ 10 200 = ⟨1, some 200⟩ := by
  constructor
  · decide
  · decide

/-- Claim C5, amended.  On a TRANSIENT disconnect with uptime at least
`stable_connect_seconds` the stream discards the accumulated failure count and
window start, but then counts the current failure, so `consecutive_failures`
is 1 (not 0) and the window restarts at `now` when the degraded-health check
and the `reconnect_scheduled` envelope read the state; with uptime below the
threshold the counter increments and the window start defaults to `now` only
when unset. -/
theorem C5_stable_uptime_reset (stableConnectSeconds : ℚ) (st : StreamRetryState)
    (uptime now : ℚ) :
    (stableConnectSeconds ≤ uptime →
      transientDisconnectStep stableConnectSeconds st uptime now =
          ⟨1, some now⟩ ∧
        reconnectAttemptValue (transientDisconnectStep stableConnectSeconds st uptime now) = 1) ∧
    (uptime < stableConnectSeconds →
      transientDisconnectStep stableConnectSeconds st uptime now =
        ⟨st.consecutive_failures + 1, some (st.retry_window_started.getD now)⟩) := by
  constructor
  · intro h
    have : transientDisconnectStep stableConnectSeconds st uptime now = ⟨1, some now⟩ := by
      simp [transientDisconnectStep, h]
    exact ⟨this, by rw [this]; rfl⟩
  · intro h
    have hnot : ¬ stableConnectSeconds ≤ uptime := not_le.mpr h
    rcases hw : st.retry_window_started with _ | w
    · simp [transientDisconnectStep, hnot, hw]
    · simp [transientDisconnectStep, hnot, hw]

theorem C5_stable_uptime_reset_witness :
    (transientDisconnectStep 5 ⟨7, some 100⟩ 10 200 = ⟨1, some 200⟩ ∧
      reconnectAttemptValue (transientDisconnectStep 5 ⟨7, some 100⟩ 10 200) = 1) ∧
    transientDisconnectStep 5 ⟨7, some 100⟩ 3 200 = ⟨8, some 100⟩ :=
  ⟨(C5_stable_uptime_reset 5 ⟨7, some 100⟩ 10 200).1 (by norm_num),
   (C5_stable_uptime_reset 5 ⟨7, some 100⟩ 3 200).2 (by norm_num)⟩

/-- Claim C7 as stated is false: an error carrying `status_code = 500` whose
message contains "connection" maps to `network_error`, because the source
applies the message-substring rules before the `>= 500` rule; the spec-order
mapping would give `remote_error`. -/
theorem C7_order_counterexample :
    mapKalshiError ⟨some 500, false, false, false, "connection reset by peer"⟩ =
        ConnectorErrorCode.networkError ∧
      mapKalshiErrorSpecOrder ⟨some 500, false, false, false, "connection reset by peer"⟩ =
        ConnectorErrorCode.remoteError ∧
      mapKalshiError ⟨some 500, false, false, false, "connection reset by peer"⟩ ≠
        ConnectorErrorCode.remoteError := by
  refine ⟨by decide, by decide, by decide⟩

/-- Claim C7, amended.  `map_kalshi_error` checks the five exact statuses
first, but the `>= 500 → remote_error` rule runs only after the
transport-type and message-substring rules: an error without one of the exact
statuses that is no timeout or OS error and whose lowercased message contains
none of "timeout", "connection", "network" maps to `remote_error` when its
status is at least 500; with such a status but a message containing
"connection" or "network" it maps to `network_error` instead. -/
theorem C7_error_mapping_order (e : PyError)
    (h400 : e.status_code ≠ some 400) (h401 : e.status_code ≠ some 401)
    (h403 : e.status_code ≠ some 403) (h404 : e.status_code ≠ some 404)
    (h429 : e.status_code ≠ some 429)
    (hto : e.isTimeoutError = false) (hos : e.isOSError = false)
    (hmt : strContainsSub (strToLower e.message) "timeout" = false) :
    (strContainsSub (strToLower e.message) "connection" = false →
      strContainsSub (strToLower e.message) "network" = false →
      statusAtLeast500 e.status_code = true →
      mapKalshiError e = ConnectorErrorCode.remoteError) ∧
    (strContainsSub (strToLower e.message) "connection" = true ∨
        strContainsSub (strToLower e.message) "network" = true →
      mapKalshiError e = ConnectorErrorCode.networkError) := by
  constructor
  · intro hc hn h500
    simp [mapKalshiError, h400, h401, h403, h404, h429, hto, hos, hmt, hc, hn, h500]
  · intro hcn
    rcases hcn with hc | hn
    · simp [mapKalshiError, h400, h401, h403, h404, h429, hto, hos, hmt, hc]
    · simp [mapKalshiError, h400, h401, h403, h404, h429, hto, hos, hmt, hn]

theorem C7_error_mapping_order_witness :
    mapKalshiError ⟨some 502, false, false, false, "Bad Gateway"⟩ =
        ConnectorErrorCode.remoteError ∧
      mapKalshiError ⟨some 500, false, false, false, "connection reset by peer"⟩ =
        ConnectorErrorCode.networkError :=
  ⟨((C7_error_mapping_order ⟨some 502, false, false, false, "Bad Gateway"⟩
      (by decide) (by decide) (by decide) (by decide) (by decide)
      rfl rfl (by decide)).1 (by decide) (by decide) (by decide)),
   ((C7_error_mapping_order ⟨some 500, false, false, false, "connection reset by peer"⟩
      (by decide) (by decide) (by decide) (by decide) (by decide)
      rfl rfl (by decide)).2 (Or.inl (by decide)))⟩

/-- Claim C9 as stated is false: `_request` serializes the body with compact
separators but without `sort_keys`, so a payload whose keys arrive unsorted is
signed and sent in its own key order, not as the canonical sorted-key JSON. -/
theorem C9_body_counterexample :
    (buildRequest (some (Json.obj [("b", Json.num 1), ("a", Json.num 2)]))).signedBody =
        "\x7b\"b\":1,\"a\":2\x7d" ∧
      specCanonicalBody (Json.obj [("b", Json.num 1), ("a", Json.num 2)]) =
        "\x7b\"a\":2,\"b\":1\x7d" ∧
      (buildRequest (some (Json.obj [("b", Json.num 1), ("a", Json.num 2)]))).signedBody ≠
        specCanonicalBody (Json.obj [("b", Json.num 1), ("a", Json.num 2)]) := by
  refine ⟨rfl, rfl, by decide⟩

/-- Claim C9, amended.  For every non-empty payload the body that `_request`
signs and the body it sends are the same string: the payload serialized with
compact separators in the payload's own key order (not sorted). -/
theorem C9_request_body (fs : List (String × Json)) (hne : fs ≠ []) :
    (buildRequest (some (Json.obj fs))).signedBody = dumpJson (Json.obj fs) ∧
      (buildRequest (some (Json.obj fs))).sentBody = some (dumpJson (Json.obj fs)) := by
  rcases fs with _ | ⟨f, fs⟩
  · exact absurd rfl hne
  have htruthy : jsonTruthy (Json.obj (f :: fs)) = true := by simp [jsonTruthy]
  have hbody : requestBody (some (Json.obj (f :: fs))) = dumpJson (Json.obj (f :: fs)) := by
    simp [requestBody, htruthy]
  have hnonempty : dumpJson (Json.obj (f :: fs)) ≠ "" := by
    intro h
    have hlen := congrArg String.length h
    rw [dumpJson] at hlen
    simp [String.length_append] at hlen
    exact absurd hlen.2 (by decide)
  constructor
  · simp [buildRequest, hbody]
  · simp [buildRequest, hbody, hnonempty]

theorem C9_request_body_witness :
    (buildRequest (some (Json.obj [("b", Json.num 1), ("a", Json.num 2)]))).signedBody =
        dumpJson (Json.obj [("b", Json.num 1), ("a", Json.num 2)]) ∧
      (buildRequest (some (Json.obj [("b", Json.num 1), ("a", Json.num 2)]))).sentBody =
        some (dumpJson (Json.obj [("b", Json.num 1), ("a", Json.num 2)])) :=
  C9_request_body [("b", Json.num 1), ("a", Json.num 2)] (by simp)

/-! ## Lemmas about the rate limiter -/

theorem dropWhile_eq_self_of_all {α : Type} (p : α → Bool) (l : List α)
    (h : ∀ x ∈ l, p x = false) : l.dropWhile p = l := by
  cases l with
  | nil => rfl
  | cons x xs =>
    rw [List.dropWhile_cons, h x (List.mem_cons_self x xs)]
    simp

/-- Eviction does nothing while every reservation is younger than the window. -/
theorem evictOld_of_fresh (r : ℚ) (E : List ℚ) (now : ℚ)
    (h : ∀ x ∈ E, now - x < 1) : evictOld ⟨r, E⟩ now = ⟨r, E⟩ := by
  have : E.dropWhile (fun t => decide (1 ≤ now - t)) = E := by
    refine dropWhile_eq_self_of_all _ E ?_
    intro x hx
    simpa using not_le.mpr (h x hx)
  simp [evictOld, this]

/-- While the bucket is below capacity, every acquire inside the window is
granted immediately and appends its reservation. -/
theorem runBurst_fill (r : ℚ) (hr : 0 < r) (t1 : ℚ) :
    ∀ (ts E : List ℚ) (th d : Nat),
      (∀ t ∈ ts, t1 ≤ t ∧ t < t1 + 1) →
      (∀ x ∈ E, t1 ≤ x ∧ x < t1 + 1) →
      E.length + ts.length ≤ bucketCapacity r →
      runBurst ⟨⟨r, E⟩, th, d⟩ 0 ts =
        (List.replicate ts.length .granted, ⟨⟨r, E ++ ts⟩, th, d⟩)
  | [], E, th, d, _, _, _ => by simp [runBurst]
  | t :: ts, E, th, d, hts, hE, hcap => by
    have htwin := hts t (List.mem_cons_self t ts)
    have hevict : evictOld ⟨r, E⟩ t = ⟨r, E⟩ := by
      refine evictOld_of_fresh r E t ?_
      intro x hx
      have := hE x hx
      linarith [htwin.2, this.1]
    have hcap2 : E.length + (ts.length + 1) ≤ bucketCapacity r := by
      simpa using hcap
    have hlt : E.length < bucketCapacity r := by omega
    have hres : reserveDelay ⟨r, E⟩ t = (.ready, ⟨r, E ++ [t]⟩) := by
      rw [reserveDelay]
      rw [hevict]
      simp only [not_le.mpr hr, if_false]
      simp [hlt]
    have hstep : acquireStep ⟨⟨r, E⟩, th, d⟩ t 0 = (.granted, ⟨⟨r, E ++ [t]⟩, th, d⟩) := by
      simp [acquireStep, hres]
    have hrec := runBurst_fill r hr t1 ts (E ++ [t]) th d
      (fun x hx => hts x (List.mem_cons_of_mem t hx))
      (by
        intro x hx
        rcases List.mem_append.mp hx with h1 | h1
        · exact hE x h1
        · rcases List.mem_singleton.mp h1 with rfl
          exact htwin)
      (by
        simp only [List.length_append, List.length_singleton]
        omega)
    rw [runBurst, hstep]
    simp only [hrec]
    simp [List.replicate_succ, List.append_assoc]

/-- Once the bucket holds a full window of reservations, every further acquire
inside the window is dropped with the 429-hinted error and the reservations
are untouched. -/
theorem runBurst_saturated (r : ℚ) (hr : 0 < r) (t1 : ℚ) :
    ∀ (ts E : List ℚ) (th d : Nat),
      (∀ t ∈ ts, t1 ≤ t ∧ t < t1 + 1) →
      (∀ x ∈ E, t1 ≤ x ∧ x < t1 + 1) →
      E.length = bucketCapacity r →
      runBurst ⟨⟨r, E⟩, th, d⟩ 0 ts =
        (List.replicate ts.length (.droppedReq 429), ⟨⟨r, E⟩, th, d + ts.length⟩)
  | [], E, th, d, _, _, _ => by simp [runBurst]
  | t :: ts, [], th, d, hts, hE, hcap => by
    have hcap1 : 1 ≤ bucketCapacity r := by simp [bucketCapacity]
    simp at hcap
    omega
  | t :: ts, oldest :: restE, th, d, hts, hE, hcap => by
    have htwin := hts t (List.mem_cons_self t ts)
    have hevict : evictOld ⟨r, oldest :: restE⟩ t = ⟨r, oldest :: restE⟩ := by
      refine evictOld_of_fresh r (oldest :: restE) t ?_
      intro x hx
      have := hE x hx
      linarith [htwin.2, this.1]
    have holdwin := hE oldest (List.mem_cons_self oldest restE)
    have hw : (0 : ℚ) < oldest + 1 - t := by linarith [holdwin.1, htwin.2]
    have hres : reserveDelay ⟨r, oldest :: restE⟩ t =
        (.waitFor (max 0 (oldest + 1 - t)), ⟨r, oldest :: restE⟩) := by
      rw [reserveDelay]
      rw [hevict]
      simp only [not_le.mpr hr, if_false]
      simp only [hcap, lt_irrefl, if_false]
      have hnot : ¬ (max 0 (oldest + 1 - t) ≤ (0 : ℚ)) := by
        rw [not_le]
        exact lt_max_of_lt_right hw
      simp [hnot]
    have hstep : acquireStep ⟨⟨r, oldest :: restE⟩, th, d⟩ t 0 =
        (.droppedReq 429, ⟨⟨r, oldest :: restE⟩, th, d + 1⟩) := by
      have htmo : (0 : ℚ) < max 0 (oldest + 1 - t) := lt_max_of_lt_right hw
      simp [acquireStep, hres, htmo]
    have hrec := runBurst_saturated r hr t1 ts (oldest :: restE) th (d + 1)
      (fun x hx => hts x (List.mem_cons_of_mem t hx)) hE hcap
    rw [runBurst, hstep]
    simp only [hrec]
    refine Prod.ext ?_ ?_
    · simp [List.replicate_succ]
    · simp
      omega

theorem runBurst_append (timeout : ℚ) :
    ∀ (ts1 ts2 : List ℚ) (s : LimiterState),
      runBurst s timeout (ts1 ++ ts2) =
        ((runBurst s timeout ts1).1 ++ (runBurst (runBurst s timeout ts1).2 timeout ts2).1,
          (runBurst (runBurst s timeout ts1).2 timeout ts2).2)
  | [], ts2, s => by simp [runBurst]
  | t :: ts1, ts2, s => by
    rw [List.cons_append, runBurst, runBurst]
    simp only [runBurst_append timeout ts1 ts2]
    simp

/-- Claim C4 as stated is false on the capacity formula: the bucket capacity
is `max(1, int(rps))`, so an RPS of 1/2 yields capacity 1 — not 0, the value
of 1/2 rounded down — and the single call of a burst of ⌊1/2⌋ + 1 = 1 request
is granted with no drop, where the claim predicts a drop. -/
theorem C4_capacity_counterexample :
    bucketCapacity (1 / 2 : ℚ) = 1 ∧ ⌊(1 / 2 : ℚ)⌋ = 0 ∧
      (runBurst ⟨⟨1 / 2, []⟩, 0, 0⟩ 0 [0]).1 = [.granted] ∧
      (runBurst ⟨⟨1 / 2, []⟩, 0, 0⟩ 0 [0]).2.dropped_requests = 0 := by
  have hfloor : ⌊(1 / 2 : ℚ)⌋ = 0 := by
    rw [Int.floor_eq_zero_iff]
    constructor <;> norm_num
  have hcap : bucketCapacity (1 / 2 : ℚ) = 1 := by
    rw [bucketCapacity, hfloor]
    rfl
  have hrun := runBurst_fill (1 / 2) (by norm_num) 0 [0] [] 0 0
    (by
      intro t ht
      rcases List.mem_singleton.mp ht with rfl
      norm_num)
    (by simp)
    (by rw [hcap]; simp)
  refine ⟨hcap, hfloor, ?_, ?_⟩
  · rw [hrun]
    rfl
  · rw [hrun]

/-- Claim C4, amended.  The bucket capacity is `C = max(1, ⌊r⌋)` for a
configured RPS `r > 0` (the plain floor only when `r ≥ 1`), and for a burst of
`C + k` acquire calls on one bucket within one second with
`wait_timeout_seconds = 0`, exactly the first `C` calls are granted and the
remaining `k` fail with the rate-limit-exceeded error carrying the HTTP-status
hint 429, with `dropped_requests` incremented exactly `k` times. -/
theorem C4_rate_limit_burst (r : ℚ) (hr : 0 < r) (k : Nat) (ts : List ℚ) (t1 : ℚ)
    (hlen : ts.length = bucketCapacity r + k)
    (hwin : ∀ t ∈ ts, t1 ≤ t ∧ t < t1 + 1) :
    bucketCapacity r = max 1 (Int.toNat ⌊r⌋) ∧
      (runBurst ⟨⟨r, []⟩, 0, 0⟩ 0 ts).1 =
        List.replicate (bucketCapacity r) .granted ++
          List.replicate k (.droppedReq 429) ∧
      (runBurst ⟨⟨r, []⟩, 0, 0⟩ 0 ts).2.dropped_requests = k := by
  have hsplit : ts = ts.take (bucketCapacity r) ++ ts.drop (bucketCapacity r) :=
    (List.take_append_drop _ ts).symm
  have htake : (ts.take (bucketCapacity r)).length = bucketCapacity r := by
    rw [List.length_take]
    omega
  have hdrop : (ts.drop (bucketCapacity r)).length = k := by
    rw [List.length_drop]
    omega
  have hfill := runBurst_fill r hr t1 (ts.take (bucketCapacity r)) [] 0 0
    (fun t ht => hwin t (List.mem_of_mem_take ht)) (by simp) (by simp [htake])
  have hsat := runBurst_saturated r hr t1 (ts.drop (bucketCapacity r))
    (ts.take (bucketCapacity r)) 0 0
    (fun t ht => hwin t (List.mem_of_mem_drop ht))
    (fun x hx => hwin x (List.mem_of_mem_take hx)) htake
  have happ := runBurst_append 0 (ts.take (bucketCapacity r)) (ts.drop (bucketCapacity r))
    ⟨⟨r, []⟩, 0, 0⟩
  rw [← hsplit] at happ
  refine ⟨rfl, ?_, ?_⟩
  · rw [happ]
    rw [hfill]
    simp only [List.nil_append]
    rw [hsat]
    simp [htake, hdrop]
  · rw [happ]
    rw [hfill]
    simp only [List.nil_append]
    rw [hsat]
    simp [hdrop]

theorem C4_rate_limit_burst_witness :
    bucketCapacity 2 = max 1 (Int.toNat ⌊(2 : ℚ)⌋) ∧
      (runBurst ⟨⟨2, []⟩, 0, 0⟩ 0 [0, 0, 0]).1 =
        List.replicate (bucketCapacity 2) .granted ++
          List.replicate 1 (.droppedReq 429) ∧
      (runBurst ⟨⟨2, []⟩, 0, 0⟩ 0 [0, 0, 0]).2.dropped_requests = 1 :=
  C4_rate_limit_burst 2 (by norm_num) 1 [0, 0, 0] 0
    (by
      have hfloor : ⌊(2 : ℚ)⌋ = 2 := by norm_num
      rw [bucketCapacity, hfloor]
      rfl)
    (by
      intro t ht
      rcases List.mem_cons.mp ht with rfl | ht
      · norm_num
      rcases List.mem_cons.mp ht with rfl | ht
      · norm_num
      rcases List.mem_singleton.mp ht with rfl
      norm_num)

/-- Claim C8 as stated is false: for a message whose resolved channel is
unsupported, `_normalize_message` does return the empty list without raising,
but `process_market_data_message` still builds the envelope timestamp
unconditionally, so the message `(channel := "heartbeat")` with no
timestamp field raises "Missing timestamp" instead of returning the empty
list. -/
theorem C8_skip_counterexample :
    normalizeMessage (fun _ => Except.ok "") (Json.obj [("channel", Json.str "heartbeat")]) =
        Except.ok [] ∧
      processMarketDataMessage (fun _ => Except.ok "") "T"
          (Json.obj [("channel", Json.str "heartbeat")]) =
        Except.error "Missing timestamp" :=
  ⟨rfl, rfl⟩

/-- Claim C8, amended.  A raw message whose resolved channel (raw.channel,
else data.type, else raw.type) is outside the supported set is skipped by
`_normalize_message` without raising, and `process_market_data_message`
returns the empty list and publishes nothing provided the unconditional
envelope extraction succeeds — the sequence converts and a truthy
timestamp/ts value is present and parseable; with the timestamp missing the
call raises even for an unsupported channel. -/
theorem C8_unsupported_channel_skipped (fmtTs : Json → Except String String)
    (ingestTs : String) (raw : Json)
    (hob : resolvedChannel raw ≠ "orderbook_delta")
    (htr : resolvedChannel raw ≠ "trade") :
    normalizeMessage fmtTs raw = Except.ok [] ∧
      (∀ q ts s, extractSequence (extractPayload raw) = Except.ok q →
        pyOrChain (extractPayload raw) ["timestamp", "ts"] = some ts →
        fmtTs ts = Except.ok s →
        processMarketDataMessage fmtTs ingestTs raw = Except.ok ([], [])) ∧
      (∀ q, extractSequence (extractPayload raw) = Except.ok q →
        pyOrChain (extractPayload raw) ["timestamp", "ts"] = none →
        processMarketDataMessage fmtTs ingestTs raw =
          Except.error "Missing timestamp") := by
  have hnorm : normalizeMessage fmtTs raw = Except.ok [] := by
    simp [normalizeMessage, hob, htr]
  refine ⟨hnorm, ?_, ?_⟩
  · intro q ts s hseq hts hfmt
    simp only [processMarketDataMessage, hnorm, hseq, hts, hfmt, normalizeTimestamp]
    rfl
  · intro q hseq hnone
    simp only [processMarketDataMessage, hnorm, hseq, hnone, normalizeTimestamp]
    rfl

theorem C8_unsupported_channel_skipped_witness :
    normalizeMessage (fun _ => Except.ok "1970-01-01T00:00:05Z")
        (Json.obj [("channel", Json.str "heartbeat"), ("timestamp", Json.num 5)]) =
      Except.ok [] ∧
      processMarketDataMessage (fun _ => Except.ok "1970-01-01T00:00:05Z") "T"
          (Json.obj [("channel", Json.str "heartbeat"), ("timestamp", Json.num 5)]) =
        Except.ok ([], []) := by
  have h := C8_unsupported_channel_skipped (fun _ => Except.ok "1970-01-01T00:00:05Z") "T"
    (Json.obj [("channel", Json.str "heartbeat"), ("timestamp", Json.num 5)])
    (by decide) (by decide)
  exact ⟨h.1, h.2.1 0 (Json.num 5) "1970-01-01T00:00:05Z" rfl rfl rfl⟩

/-! ## Lemmas about the retry loop -/

/-- A commit failure rolls the transaction back: the connection comes out
exactly as it went in (no transaction was open between events). -/
theorem upsertEventTx_commitRaises (sha256hex : String → String) (c : SqlConn)
    (e : InboundEvent) (now : Nat) (m : String) (htxn : c.txnLedger = none) :
    upsertEventTx sha256hex c e now (.commitRaises m) = (c, some m) := by
  rcases c with ⟨L, P, txn⟩
  simp only at htxn
  subst htxn
  rfl

/-- An insert failure rolls the transaction back likewise. -/
theorem upsertEventTx_insertRaises (sha256hex : String → String) (c : SqlConn)
    (e : InboundEvent) (now : Nat) (m : String) (htxn : c.txnLedger = none) :
    upsertEventTx sha256hex c e now (.insertRaises m) = (c, some m) := by
  rcases c with ⟨L, P, txn⟩
  simp only at htxn
  subst htxn
  rfl

/-- Closed form of the retry loop when every attempt commits into a lock
error: it walks attempts `a, a+1, …, limit+1`, sleeping after each failed
attempt except the last, and exhausts into one poison record. -/
theorem writeAttempts_all_lock (sha256hex : String → String) (cfg : WriterConfig)
    (e : InboundEvent) (msgs : Nat → String) (rand : Nat → ℚ) (clock : Nat → Nat)
    (c : SqlConn) (faults : Nat → UpsertFault) (htxn : c.txnLedger = none)
    (hf : ∀ i, faults i = .commitRaises (msgs i))
    (hl : ∀ i, isTransientLockError (msgs i) = true) :
    ∀ (fuel a : Nat), 1 ≤ a → a ≤ cfg.lock_retry_limit + 1 →
      a + fuel = cfg.lock_retry_limit + 2 →
      writeAttempts sha256hex cfg e faults rand clock c a fuel =
        (recordPoison c e
            ("db lock retries exhausted: " ++ msgs (cfg.lock_retry_limit + 1)),
         .poison (cfg.lock_retry_limit + 1) (some (msgs (cfg.lock_retry_limit + 1))),
         (List.range' a (cfg.lock_retry_limit + 1 - a)).map
           (fun i => backoffDelay cfg (rand i) i))
  | 0, a, h1, h2, h3 => by omega
  | fuel + 1, a, h1, h2, h3 => by
    rw [writeAttempts]
    rw [hf a, upsertEventTx_commitRaises sha256hex c e (clock a) (msgs a) htxn]
    simp only [hl a, if_true]
    by_cases hlast : cfg.lock_retry_limit < a
    · have ha : a = cfg.lock_retry_limit + 1 := by omega
      subst ha
      simp only [hlast, if_true]
      have : cfg.lock_retry_limit + 1 - (cfg.lock_retry_limit + 1) = 0 := by omega
      simp [this]
    · simp only [hlast, if_false]
      have hrec := writeAttempts_all_lock sha256hex cfg e msgs rand clock c faults htxn
        hf hl fuel (a + 1) (by omega) (by omega) (by omega)
      rw [hrec]
      have hlen : cfg.lock_retry_limit + 1 - a = (cfg.lock_retry_limit + 1 - (a + 1)) + 1 := by
        omega
      rw [hlen, List.range'_succ]
      simp

/-- Claim C3.  Lock-retry exhaustion: when every upsert attempt fails with a
transient lock error, the writer makes exactly `lock_retry_limit + 1`
attempts, sleeping between attempts a delay `u·min(cap, base·2^(i−1))` with
`u ∈ [0, 1]` the unit random of `random.uniform` — so each delay lies in
`[0, min(backoff_cap_seconds, backoff_base_seconds·2^(i−1))]` — and on
exhaustion writes exactly one poison record whose reason starts with
"db lock retries exhausted: "; a non-lock operational error on the first
attempt is raised immediately with no poison record and no sleeps. -/
theorem C3_lock_retry_exhaustion (sha256hex : String → String) (cfg : WriterConfig)
    (e : InboundEvent) (msgs : Nat → String) (rand : Nat → ℚ) (clock : Nat → Nat)
    (c : SqlConn)
    (hss : e.source_system ≠ "") (hsid : e.source_event_id ≠ "")
    (htxn : c.txnLedger = none)
    (hbase : 0 ≤ cfg.backoff_base_seconds) (hcap : 0 ≤ cfg.backoff_cap_seconds)
    (hrand : ∀ i, 0 ≤ rand i ∧ rand i ≤ 1) :
    (∀ faults, (∀ i, faults i = UpsertFault.commitRaises (msgs i)) →
      (∀ i, isTransientLockError (msgs i) = true) →
      writeWithRetries sha256hex cfg e faults rand clock c =
        (recordPoison c e
            ("db lock retries exhausted: " ++ msgs (cfg.lock_retry_limit + 1)),
         .poison (cfg.lock_retry_limit + 1) (some (msgs (cfg.lock_retry_limit + 1))),
         (List.range' 1 cfg.lock_retry_limit).map
           (fun i => backoffDelay cfg (rand i) i)) ∧
        (recordPoison c e
            ("db lock retries exhausted: " ++ msgs (cfg.lock_retry_limit + 1))).poison =
          c.poison ++
            [{ source_system := some e.source_system, source_event_id := some e.source_event_id,
               reason := "db lock retries exhausted: " ++ msgs (cfg.lock_retry_limit + 1),
               payload_json := toJson e.payload }]) ∧
    (∀ i, 1 ≤ i →
      0 ≤ backoffDelay cfg (rand i) i ∧
        backoffDelay cfg (rand i) i ≤
          min cfg.backoff_cap_seconds (cfg.backoff_base_seconds * 2 ^ (i - 1))) ∧
    (∀ faults m, faults 1 = UpsertFault.commitRaises m →
      isTransientLockError m = false →
      writeWithRetries sha256hex cfg e faults rand clock c = (c, .raised m, [])) := by
  refine ⟨?_, ?_, ?_⟩
  · intro faults hf hl
    constructor
    · rw [writeWithRetries]
      simp only [hss, hsid, or_self, if_false, false_or]
      exact writeAttempts_all_lock sha256hex cfg e msgs rand clock c faults htxn hf hl
        (cfg.lock_retry_limit + 1) 1 (by omega) (by omega) (by omega)
    · simp [recordPoison, hss, hsid]
  · intro i _
    have hu := hrand i
    have hmin : 0 ≤ min cfg.backoff_cap_seconds (cfg.backoff_base_seconds * 2 ^ (i - 1)) := by
      refine le_min hcap ?_
      positivity
    constructor
    · exact mul_nonneg hu.1 hmin
    · calc rand i * min cfg.backoff_cap_seconds (cfg.backoff_base_seconds * 2 ^ (i - 1)) ≤
          1 * min cfg.backoff_cap_seconds (cfg.backoff_base_seconds * 2 ^ (i - 1)) :=
            mul_le_mul_of_nonneg_right hu.2 hmin
        _ = min cfg.backoff_cap_seconds (cfg.backoff_base_seconds * 2 ^ (i - 1)) := one_mul _
  · intro faults m hf1 hnl
    rw [writeWithRetries]
    simp only [hss, hsid, or_self, if_false, false_or]
    have hfuel : cfg.lock_retry_limit + 1 = (cfg.lock_retry_limit) + 1 := rfl
    rw [writeAttempts]
    rw [hf1, upsertEventTx_commitRaises sha256hex c e (clock 1) m htxn]
    simp [hnl]

def c3Event : InboundEvent :=
  { source_system := "kalshi", source_event_id := "evt-locked"
    payload := Json.obj [("a", Json.num 1)] }

def c3Config : WriterConfig := ⟨2, 1 / 10, 5⟩

theorem C3_lock_retry_exhaustion_witness :
    (writeWithRetries (fun _ => "sha") c3Config c3Event
        (fun _ => .commitRaises "database is locked") (fun _ => 0) (fun _ => 0)
        ⟨[], [], none⟩ =
      (recordPoison ⟨[], [], none⟩ c3Event
          ("db lock retries exhausted: " ++ "database is locked"),
       .poison 3 (some "database is locked"),
       (List.range' 1 2).map (fun i => backoffDelay c3Config ((fun _ : Nat => (0 : ℚ)) i) i))) ∧
      writeWithRetries (fun _ => "sha") c3Config c3Event
          (fun _ => .commitRaises "disk read error") (fun _ => 0) (fun _ => 0)
          ⟨[], [], none⟩ =
        (⟨[], [], none⟩, .raised "disk read error", []) := by
  have h := C3_lock_retry_exhaustion (fun _ => "sha") c3Config c3Event
    (fun _ => "database is locked") (fun _ => 0) (fun _ => 0) ⟨[], [], none⟩
    (by decide) (by decide) rfl (by norm_num [c3Config]) (by norm_num [c3Config])
    (fun i => ⟨le_refl 0, by norm_num⟩)
  have hlock : isTransientLockError "database is locked" = true := by decide
  refine ⟨?_, ?_⟩
  · exact (h.1 (fun _ => .commitRaises "database is locked") (fun _ => rfl)
      (fun _ => hlock)).1
  · exact h.2.2 (fun _ => .commitRaises "disk read error") "disk read error" rfl (by decide)

/-! ## Lemmas about the fan-out queue -/

/-- `deque.remove` of the first non-critical event shortens the queue by one. -/
theorem removeFirstNonCritical_length :
    ∀ (l q : List UiEvent), removeFirstNonCritical l = some q → q.length + 1 = l.length
  | [], _, h => by simp [removeFirstNonCritical] at h
  | ev :: rest, q, h => by
    rw [removeFirstNonCritical] at h
    by_cases hcrit : ev.critical = true
    · rw [if_pos hcrit] at h
      rcases hrem : removeFirstNonCritical rest with _ | q2
      · rw [hrem] at h
        simp at h
      · rw [hrem] at h
        simp only [Option.map_some', Option.some.injEq] at h
        subst h
        have := removeFirstNonCritical_length rest q2 hrem
        simp only [List.length_cons]
        omega
    · rw [if_neg hcrit] at h
      simp only [Option.some.injEq] at h
      subst h
      simp

/-- A successful enqueue never grows the queue beyond `max_queue_size`. -/
theorem enqueueEvent_length (maxQueueSize : Nat) (st : ClientState) (ev : UiEvent)
    (st2 : ClientState) (hlen : st.queue.length ≤ maxQueueSize)
    (h : enqueueEvent maxQueueSize st ev = some st2) :
    st2.queue.length ≤ maxQueueSize := by
  rw [enqueueEvent] at h
  by_cases hlt : st.queue.length < maxQueueSize
  · rw [if_pos hlt] at h
    simp only [Option.some.injEq] at h
    subst h
    simp only [List.length_append, List.length_singleton]
    omega
  · rw [if_neg hlt] at h
    by_cases hcrit : ev.critical = true
    · rw [if_pos hcrit] at h
      rcases hrem : removeFirstNonCritical st.queue with _ | q
      · rw [hrem] at h
        rcases hq : st.queue with _ | ⟨hd, rest⟩
        · rw [hq] at h
          simp at h
        · rw [hq] at h
          simp only [Option.some.injEq] at h
          subst h
          have hlq : st.queue.length = rest.length + 1 := by
            rw [hq]
            rfl
          simp only [List.length_append, List.length_singleton]
          omega
      · rw [hrem] at h
        simp only [Option.some.injEq] at h
        subst h
        have := removeFirstNonCritical_length st.queue q hrem
        simp only [List.length_append, List.length_singleton]
        omega
    · rw [if_neg hcrit] at h
      simp only [Option.some.injEq] at h
      subst h
      simpa using hlen

/-- One fan-out operation keeps the queue bound. -/
theorem applyClientOp_length (maxQueueSize : Nat) (st : ClientState) (op : ClientOp)
    (hlen : st.queue.length ≤ maxQueueSize) :
    (applyClientOp maxQueueSize st op).queue.length ≤ maxQueueSize := by
  cases op with
  | streamEv ev =>
    rw [applyClientOp]
    by_cases hsub : st.subscriptions.contains ev.topic
    · rw [if_pos hsub]
      rcases henq : enqueueEvent maxQueueSize st ev with _ | st2
      · simpa using hlen
      · simpa using enqueueEvent_length maxQueueSize st ev st2 hlen henq
    · rw [if_neg hsub]
      exact hlen
  | flushOp limit =>
    simp only [applyClientOp, flushClient]
    calc (st.queue.drop (limit.getD st.queue.length)).length ≤ st.queue.length :=
          by simpa using List.length_drop_le _ _
      _ ≤ maxQueueSize := hlen

/-- One fan-out operation never decreases the drop counter. -/
theorem applyClientOp_dropped (maxQueueSize : Nat) (st : ClientState) (op : ClientOp) :
    st.dropped_non_critical ≤ (applyClientOp maxQueueSize st op).dropped_non_critical := by
  cases op with
  | streamEv ev =>
    rw [applyClientOp]
    by_cases hsub : st.subscriptions.contains ev.topic
    · rw [if_pos hsub]
      rcases henq : enqueueEvent maxQueueSize st ev with _ | st2
      · simp
      · simp only [Option.getD_some]
        rw [enqueueEvent] at henq
        by_cases hlt : st.queue.length < maxQueueSize
        · rw [if_pos hlt] at henq
          simp only [Option.some.injEq] at henq
          subst henq
          exact le_refl _
        · rw [if_neg hlt] at henq
          by_cases hcrit : ev.critical = true
          · rw [if_pos hcrit] at henq
            rcases hrem : removeFirstNonCritical st.queue with _ | q
            · rw [hrem] at henq
              rcases hq : st.queue with _ | ⟨hd, rest⟩
              · rw [hq] at henq
                simp at henq
              · rw [hq] at henq
                simp only [Option.some.injEq] at henq
                subst henq
                exact le_refl _
            · rw [hrem] at henq
              simp only [Option.some.injEq] at henq
              subst henq
              simp
          · rw [if_neg hcrit] at henq
            simp only [Option.some.injEq] at henq
            subst henq
            simp
    · rw [if_neg hsub]
  | flushOp limit => exact le_refl _

theorem applyClientOps_length (maxQueueSize : Nat) :
    ∀ (ops : List ClientOp) (st : ClientState), st.queue.length ≤ maxQueueSize →
      (applyClientOps maxQueueSize st ops).queue.length ≤ maxQueueSize
  | [], st, h => h
  | op :: ops, st, h =>
    applyClientOps_length maxQueueSize ops (applyClientOp maxQueueSize st op)
      (applyClientOp_length maxQueueSize st op h)

theorem applyClientOps_dropped (maxQueueSize : Nat) :
    ∀ (ops : List ClientOp) (st : ClientState),
      st.dropped_non_critical ≤ (applyClientOps maxQueueSize st ops).dropped_non_critical
  | [], st => le_refl _
  | op :: ops, st =>
    le_trans (applyClientOp_dropped maxQueueSize st op)
      (applyClientOps_dropped maxQueueSize ops (applyClientOp maxQueueSize st op))

/-- Claim C6.  UI fan-out backpressure: starting from a freshly connected
client (empty queue), after any sequence of `stream_event`/`flush` operations
the queue never exceeds `max_queue_size` and `dropped_non_critical` never
decreases; when the queue is full an arriving critical event is still
enqueued — evicting the first non-critical queued event and incrementing the
counter when one exists, otherwise dropping the queue head — while an
arriving non-critical event is dropped with the counter incremented and the
queue untouched. -/
theorem C6_ui_backpressure (maxQueueSize : Nat) (subs : List String) (ops : List ClientOp) :
    (applyClientOps maxQueueSize ⟨subs, [], 0⟩ ops).queue.length ≤ maxQueueSize ∧
      (∀ ops2 st, st = applyClientOps maxQueueSize ⟨subs, [], 0⟩ ops →
        st.dropped_non_critical ≤
          (applyClientOps maxQueueSize st ops2).dropped_non_critical) ∧
      (∀ st (ev : UiEvent) (q : List UiEvent), st.queue.length = maxQueueSize →
        ev.critical = true → removeFirstNonCritical st.queue = some q →
        enqueueEvent maxQueueSize st ev =
          some { st with queue := q ++ [ev],
                         dropped_non_critical := st.dropped_non_critical + 1 }) ∧
      (∀ st (ev : UiEvent) (hd : UiEvent) (rest : List UiEvent),
        st.queue.length = maxQueueSize → ev.critical = true →
        removeFirstNonCritical st.queue = none → st.queue = hd :: rest →
        enqueueEvent maxQueueSize st ev = some { st with queue := rest ++ [ev] }) ∧
      (∀ st (ev : UiEvent), st.queue.length = maxQueueSize → 0 < maxQueueSize →
        ev.critical = false →
        enqueueEvent maxQueueSize st ev =
          some { st with dropped_non_critical := st.dropped_non_critical + 1 }) := by
  refine ⟨?_, ?_, ?_, ?_, ?_⟩
  · exact applyClientOps_length maxQueueSize ops ⟨subs, [], 0⟩ (by simp)
  · intro ops2 st _
    exact applyClientOps_dropped maxQueueSize ops2 st
  · intro st ev q hfull hcrit hrem
    rw [enqueueEvent, if_neg (by omega), if_pos hcrit, hrem]
  · intro st ev hd rest hfull hcrit hrem hq
    rw [enqueueEvent, if_neg (by omega), if_pos hcrit, hrem, hq]
  · intro st ev hfull hpos hcrit
    rw [enqueueEvent, if_neg (by omega), if_neg (by simp [hcrit])]

def c6Critical : UiEvent := ⟨"risk_alert", Json.null, "T", true⟩

def c6Market : UiEvent := ⟨"market", Json.null, "T", false⟩

theorem C6_ui_backpressure_witness :
    (applyClientOps 1 ⟨["market"], [], 0⟩
        [.streamEv c6Market, .streamEv c6Market]).queue.length ≤ 1 ∧
      enqueueEvent 1 ⟨["market"], [c6Market], 0⟩ c6Critical =
        some { subscriptions := ["market"], queue := [c6Critical],
               dropped_non_critical := 1 } ∧
      enqueueEvent 1 ⟨["market"], [c6Critical], 3⟩ c6Market =
        some { subscriptions := ["market"], queue := [c6Critical],
               dropped_non_critical := 4 } := by
  have h := C6_ui_backpressure 1 ["market"] [.streamEv c6Market, .streamEv c6Market]
  refine ⟨h.1, ?_, ?_⟩
  · have := h.2.2.1 ⟨["market"], [c6Market], 0⟩ c6Critical [] rfl rfl rfl
    simpa using this
  · have := h.2.2.2.2 ⟨["market"], [c6Critical], 3⟩ c6Market rfl (by omega) rfl
    simpa using this

/-- When no attempt succeeds, the retry loop leaves the committed
`event_ledger` untouched (the poison table may gain the exhaustion record). -/
theorem writeAttempts_ledger_of_fail (sha256hex : String → String) (cfg : WriterConfig)
    (e : InboundEvent) (faults : Nat → UpsertFault) (rand : Nat → ℚ) (clock : Nat → Nat)
    (c : SqlConn) (htxn : c.txnLedger = none) (hfail : ∀ i, faults i ≠ .noFault) :
    ∀ (fuel a : Nat),
      (writeAttempts sha256hex cfg e faults rand clock c a fuel).1.ledger = c.ledger
  | 0, a => rfl
  | fuel + 1, a => by
    rw [writeAttempts]
    rcases hfa : faults a with _ | m | m
    · exact absurd hfa (hfail a)
    · rw [upsertEventTx_insertRaises sha256hex c e (clock a) m htxn]
      by_cases hlk : isTransientLockError m
      · simp only [hlk, if_true]
        by_cases hlast : cfg.lock_retry_limit < a
        · simp [hlast, recordPoison]
        · simp only [hlast, if_false]
          exact writeAttempts_ledger_of_fail sha256hex cfg e faults rand clock c htxn hfail
            fuel (a + 1)
      · simp [hlk]
    · rw [upsertEventTx_commitRaises sha256hex c e (clock a) m htxn]
      by_cases hlk : isTransientLockError m
      · simp only [hlk, if_true]
        by_cases hlast : cfg.lock_retry_limit < a
        · simp [hlast, recordPoison]
        · simp only [hlast, if_false]
          exact writeAttempts_ledger_of_fail sha256hex cfg e faults rand clock c htxn hfail
            fuel (a + 1)
      · simp [hlk]

/-- Claim C10.  Upsert atomicity: each `_upsert_event` attempt runs inside
`BEGIN IMMEDIATE`, and when the insert or the commit raises, the `ROLLBACK`
issued before the error propagates leaves the committed `event_ledger`
exactly as it was and closes the transaction; a fault-free attempt commits
exactly one upsert.  Consequently a retry loop in which no attempt succeeds
(every fault raises) ends with the `event_ledger` unchanged. -/
theorem C10_upsert_atomicity (sha256hex : String → String) (cfg : WriterConfig)
    (e : InboundEvent) (rand : Nat → ℚ) (clock : Nat → Nat) :
    (∀ (c : SqlConn) (now : Nat) (fault : UpsertFault), fault ≠ .noFault →
      ∃ msg, upsertEventTx sha256hex c e now fault =
        ({ ledger := c.ledger, poison := c.poison, txnLedger := none }, some msg)) ∧
    (∀ (c : SqlConn) (now : Nat),
      upsertEventTx sha256hex c e now .noFault =
        ({ ledger := upsertEvent sha256hex c.ledger e now, poison := c.poison,
           txnLedger := none }, none)) ∧
    (∀ (c : SqlConn) (faults : Nat → UpsertFault), c.txnLedger = none →
      (∀ i, faults i ≠ .noFault) →
      (writeWithRetries sha256hex cfg e faults rand clock c).1.ledger = c.ledger) := by
  refine ⟨?_, ?_, ?_⟩
  · intro c now fault hfault
    cases fault with
    | noFault => exact absurd rfl hfault
    | insertRaises m =>
      exact ⟨m, by simp [upsertEventTx, beginImmediate, rollbackTx]⟩
    | commitRaises m =>
      exact ⟨m, by simp [upsertEventTx, beginImmediate, execUpsert, rollbackTx]⟩
  · intro c now
    simp [upsertEventTx, beginImmediate, execUpsert, commitTx]
  · intro c faults htxn hfail
    rw [writeWithRetries]
    by_cases hids : e.source_system = "" ∨ e.source_event_id = ""
    · simp [hids, recordPoison]
    · simp only [hids, if_false]
      exact writeAttempts_ledger_of_fail sha256hex cfg e faults rand clock c htxn hfail
        (cfg.lock_retry_limit + 1) 1

def c10Event : InboundEvent :=
  { source_system := "kalshi", source_event_id := "evt-10"
    payload := Json.obj [("x", Json.num 1)] }

theorem C10_upsert_atomicity_witness :
    (∃ msg, upsertEventTx (fun _ => "s") ⟨[], [], none⟩ c10Event 5
        (.commitRaises "database is locked") =
      ({ ledger := [], poison := [], txnLedger := none }, some msg)) ∧
      upsertEventTx (fun _ => "s") ⟨[], [], none⟩ c10Event 5 .noFault =
        ({ ledger := upsertEvent (fun _ => "s") [] c10Event 5, poison := [],
           txnLedger := none }, none) ∧
      (writeWithRetries (fun _ => "s") ⟨1, 0, 0⟩ c10Event
          (fun _ => .insertRaises "database is locked") (fun _ => 0) (fun _ => 0)
          ⟨[], [], none⟩).1.ledger = [] := by
  have h := C10_upsert_atomicity (fun _ => "s") ⟨1, 0, 0⟩ c10Event (fun _ => 0) (fun _ => 0)
  refine ⟨?_, ?_, ?_⟩
  · exact h.1 ⟨[], [], none⟩ 5 (.commitRaises "database is locked") (by simp)
  · exact h.2.1 ⟨[], [], none⟩ 5
  · exact h.2.2 ⟨[], [], none⟩ (fun _ => .insertRaises "database is locked") rfl
      (fun i => by simp)

end PredictionTrader
